import Mathlib

/-!
Verification development for the Stock-Sentiment-MVP repository.

This file shallowly embeds the two core modules of the repository,
`analysis/formatter.py` (budget-constrained bundle assembler) and
`analysis/llm.py` (resilient model-invocation layer), and proves or
refutes the specification claims about them.

Modelling conventions:
* Python `float` values reaching the formatter are modelled as `ℚ`
  (the claims under study never depend on binary-float rounding).
* Python `int` is modelled as `Int` / `Nat` as appropriate.
* Python dicts produced by the fetchers are modelled as structures whose
  fields are `Option`-valued exactly where the code reads them with
  `.get(...)`.
* `json.loads` (standard library) is modelled by an executable JSON
  parser over a `JsonV` value type; numbers are restricted to integer
  literals, which suffices for every input considered here.
* Unix timestamps are modelled as integer seconds.
-/

/-! ### Python numeric-formatting helpers

These model the CPython `format` mini-language specs actually used by
`formatter.py`: `:.2f`, `:,.2f`, `:.1f`, `:>9.2f`, `:>12,`, `:12s` and
`str()` of integers.  CPython rounds ties to even when shortening a
decimal expansion; `pyRoundHalfEven` reproduces that on `ℚ`.
-/

def pyRoundHalfEven (x : ℚ) : Int :=
  let n : Int := x.floor
  let f : ℚ := x - n
  if f > 1/2 then n + 1
  else if f < 1/2 then n
  else if n % 2 = 0 then n else n + 1

/-- Left-pad a string with `'0'` to the given width (Python `str.zfill`
without sign handling; used only on nonnegative digit strings). -/
def zfill (w : Nat) (s : String) : String :=
  if s.length < w then String.mk (List.replicate (w - s.length) '0') ++ s else s

/-- Helper for `commaGroupNat`: digits arrive least-significant first and
are regrouped in threes with `','` separators (still reversed). -/
def commaGroupRev : List Char → List Char
  | a :: b :: c :: d :: rest => a :: b :: c :: ',' :: commaGroupRev (d :: rest)
  | l => l

/-- Group the decimal digits of a natural number in threes with `','`
separators, as Python's `,` format option does. -/
def commaGroupNat (n : Nat) : String :=
  String.mk (commaGroupRev ((toString n).toList.reverse)).reverse

/-- Python `str(i)` / `{i:,}` for integers. -/
def commaGroupInt (i : Int) : String :=
  (if i < 0 then "-" else "") ++ commaGroupNat i.natAbs

/-- Python `f"{q:.d f}"`: fixed-point rendering of a rational with `d`
decimal places, ties to even, sign taken from the mathematical value. -/
def fmtFixed (q : ℚ) (d : Nat) : String :=
  let sign := if q < 0 then "-" else ""
  let m : Nat := (pyRoundHalfEven (|q| * (10 ^ d : Nat))).toNat
  let ip := m / 10 ^ d
  let fp := m % 10 ^ d
  sign ++ toString ip ++ (if d = 0 then "" else "." ++ zfill d (toString fp))

/-- Python `f"{q:,.d f}"`: as `fmtFixed` but with the integer part
comma-grouped. -/
def fmtFixedComma (q : ℚ) (d : Nat) : String :=
  let sign := if q < 0 then "-" else ""
  let m : Nat := (pyRoundHalfEven (|q| * (10 ^ d : Nat))).toNat
  let ip := m / 10 ^ d
  let fp := m % 10 ^ d
  sign ++ commaGroupNat ip ++ (if d = 0 then "" else "." ++ zfill d (toString fp))

/-- Python `f"{s:>w}"`: right-align in a field of width `w`, space padded. -/
def padLeft (w : Nat) (s : String) : String :=
  if s.length < w then String.mk (List.replicate (w - s.length) ' ') ++ s else s

/-- Python `f"{s:ws}"`: left-align in a field of width `w`, space padded. -/
def padRight (w : Nat) (s : String) : String :=
  if s.length < w then s ++ String.mk (List.replicate (w - s.length) ' ') else s

unseal Rat.add Rat.mul Rat.sub Rat.inv in
example : fmtFixed (44/10000 * 100 : ℚ) 2 = "0.44" := by decide

unseal Rat.add Rat.mul Rat.sub Rat.inv in
example : fmtFixedComma (12345678/100 : ℚ) 2 = "123,456.78" := by decide

unseal Rat.add Rat.mul Rat.sub Rat.inv in
example : fmtFixed (-1/400 : ℚ) 2 = "-0.00" := by decide

example : commaGroupInt (-1234567) = "-1,234,567" := rfl

unseal Rat.add Rat.mul Rat.sub Rat.inv in
example : padLeft 9 (fmtFixed (5/2 : ℚ) 2) = "     2.50" := by decide

/-! ### Data model

Structures mirroring the dict payloads that the five fetchers hand to
`format_context` (`formatter.py`).  A field is `Option`-valued exactly
where the code reads it with `.get(...)`; Python `None` is `none`.
-/

structure Article where
  title : Option String := none
  summary : Option String := none
  source : Option String := none
  published_at : Option String := none
  provider : Option String := none
deriving DecidableEq

structure RComment where
  body : Option String := none
  score : Option Int := none
deriving DecidableEq

structure RPost where
  title : Option String := none
  body : Option String := none
  score : Option Int := none
  num_comments : Option Int := none
  created_utc : Option Int := none
  subreddit : Option String := none
  top_comments : Option (List RComment) := none
deriving DecidableEq

/-- A number stored in a duck-typed dict slot: Python renders `int` and
`float` differently under `str()`.  The only floats stored in the slots
modelled this way (`avg_score`) are rounded to one decimal by the
fetcher, so `str()` of the float is its one-decimal rendering. -/
inductive PyNum where
  | int (i : Int)
  | float (q : ℚ)
deriving DecidableEq

def PyNum.str : PyNum → String
  | .int i => toString i
  | .float q => fmtFixed q 1

structure RStats where
  total_posts : Option Int := none
  avg_score : Option PyNum := none
  total_comments : Option Int := none
  subreddit_breakdown : Option (List (String × Int)) := none
deriving DecidableEq

structure Bar where
  date : Option String := none
  openP : Option ℚ := none
  high : Option ℚ := none
  low : Option ℚ := none
  close : Option ℚ := none
  volume : Option Int := none
deriving DecidableEq

structure PriceData where
  symbol : Option String := none
  company_name : Option String := none
  sector : Option String := none
  industry : Option String := none
  currency : Option String := none
  current_price : Option ℚ := none
  day_change_dollars : Option ℚ := none
  day_change_percent : Option ℚ := none
  previous_close : Option ℚ := none
  week_52_high : Option ℚ := none
  week_52_low : Option ℚ := none
  market_cap : Option Int := none
  volume_10day_avg : Option Int := none
  volume_3month_avg : Option Int := none
  pe_trailing : Option ℚ := none
  pe_forward : Option ℚ := none
  eps_trailing : Option ℚ := none
  dividend_yield : Option ℚ := none
  beta : Option ℚ := none
  ohlcv_30days : Option (List Bar) := none
deriving DecidableEq

structure NewsData where
  articles : Option (List Article) := none
deriving DecidableEq

structure RedditData where
  posts : Option (List RPost) := none
  stats : Option RStats := none
deriving DecidableEq

structure Filing where
  form_type : Option String := none
  filing_date : Option String := none
  description : Option String := none
  url : Option String := none
  content : Option String := none
deriving DecidableEq

structure SecData where
  filings : Option (List Filing) := none
  is_us_listed : Option Bool := none
  note : Option String := none
deriving DecidableEq

structure LastQuarter where
  beat_or_miss : Option String := none
  eps_estimate : Option ℚ := none
  eps_actual : Option ℚ := none
  eps_surprise_pct : Option ℚ := none
  period : Option String := none
deriving DecidableEq

structure EarningsData where
  next_earnings_date : Option String := none
  days_until_next : Option Int := none
  last_quarter : Option LastQuarter := none
deriving DecidableEq

/-- Python `x.get(k) or default` on a string field: both a missing key
and a falsy value (empty string) fall back to the default. -/
def pyGetStr (o : Option String) (default : String) : String :=
  match o with
  | some s => if s = "" then default else s
  | none => default

/-- Python `str.strip()` (the whitespace actually occurring in this
program is ASCII). -/
def pyStrip (s : String) : String :=
  String.mk (((s.toList.dropWhile Char.isWhitespace).reverse.dropWhile
    Char.isWhitespace).reverse)

/-- Lexicographic comparison by code point, as Python compares `str`. -/
def lexLe : List Char → List Char → Bool
  | [], _ => true
  | _ :: _, [] => false
  | a :: as, b :: bs => if a < b then true else if b < a then false else lexLe as bs

def insertSorted (x : String) : List String → List String
  | [] => [x]
  | y :: ys => if lexLe x.toList y.toList then x :: y :: ys else y :: insertSorted x ys

/-- Python `sorted` on a list of (distinct) strings. -/
def sortStrings (l : List String) : List String := l.foldr insertSorted []

/-! ### Size estimators (`formatter.py` lines 456-471) -/

/-- `_estimate_articles_size`: rough character count for a list of articles. -/
def _estimate_articles_size (articles : List Article) : Nat :=
  articles.foldl
    (fun total a => total + (a.title.getD "").length + (a.summary.getD "").length + 80) 0

/-- `_estimate_posts_size`: rough character count for a list of posts. -/
def _estimate_posts_size (posts : List RPost) : Nat :=
  posts.foldl
    (fun total p =>
      let base := total + (p.title.getD "").length + min (p.body.getD "").length 500 + 150
      (p.top_comments.getD []).foldl
        (fun t c => t + min (c.body.getD "").length 200 + 20) base)
    0

/-! ### Trimmers (`formatter.py` lines 400-453)

The Python loop `while articles and estimate(articles) > budget:
articles.pop()` is modelled by structural recursion removing the last
element (`dropLast`); the budget is an `Int` because `format_context`
passes `(_MAX_CHARS - len(fixed)) // 2`, which can be negative. -/

def trimLoopArticles (articles : List Article) (budget : Int) (removed : Nat) :
    List Article × Nat :=
  if _h : articles ≠ [] ∧ (_estimate_articles_size articles : Int) > budget then
    trimLoopArticles articles.dropLast budget (removed + 1)
  else
    (articles, removed)
termination_by articles.length
decreasing_by
  have hne : articles ≠ [] := _h.1
  have : articles.length ≠ 0 := fun h => hne (List.eq_nil_of_length_eq_zero h)
  simp [List.length_dropLast]
  omega

/-- `_trim_articles`: trim news articles to fit within the character budget. -/
def _trim_articles (articles : List Article) (budget : Int) :
    List Article × Nat :=
  if (_estimate_articles_size articles : Int) ≤ budget then (articles, 0)
  else trimLoopArticles articles budget 0

def trimLoopPosts (posts : List RPost) (budget : Int) (removed : Nat) :
    List RPost × Nat :=
  if _h : posts ≠ [] ∧ (_estimate_posts_size posts : Int) > budget then
    trimLoopPosts posts.dropLast budget (removed + 1)
  else
    (posts, removed)
termination_by posts.length
decreasing_by
  have hne : posts ≠ [] := _h.1
  have : posts.length ≠ 0 := fun h => hne (List.eq_nil_of_length_eq_zero h)
  simp [List.length_dropLast]
  omega

/-- `_trim_posts`: trim Reddit posts to fit within the character budget. -/
def _trim_posts (posts : List RPost) (budget : Int) :
    List RPost × Nat :=
  if (_estimate_posts_size posts : Int) ≤ budget then (posts, 0)
  else trimLoopPosts posts budget 0

/-! ### Formatting helpers (`formatter.py` lines 477-552) -/

/-- `_escape`: minimally escape text for embedding in XML-style tags.
The two sequential `str.replace` calls are equivalent to this single
character map because `"&lt;"` contains no `'>'`. -/
def _escape (text : String) : String :=
  String.mk (text.toList.flatMap fun c =>
    if c = '<' then "&lt;".toList else if c = '>' then "&gt;".toList else [c])

/-- `_fmt_price`: format a price with the correct currency prefix. -/
def _fmt_price (value : Option ℚ) (currency : String) : String :=
  match value with
  | none => "N/A"
  | some v =>
    let prefixStr := if currency = "CAD" then "C$" else "$"
    prefixStr ++ fmtFixedComma v 2

/-- `_fmt_change`: format a price change as `$X.XX / +X.XX%`. -/
def _fmt_change (dollars : Option ℚ) (pct : Option ℚ) : String :=
  match dollars, pct with
  | none, none => "N/A"
  | _, _ =>
    let parts :=
      (match dollars with
       | some d => [(if 0 ≤ d then "+" else "") ++ fmtFixedComma d 2]
       | none => []) ++
      (match pct with
       | some p => [(if 0 ≤ p then "+" else "") ++ fmtFixed p 2 ++ "%"]
       | none => [])
    String.intercalate " / " parts

/-- `_fmt_large`: format a large number (e.g. market cap) with B/M suffix. -/
def _fmt_large (value : Option Int) (currency : String) : String :=
  match value with
  | none => "N/A"
  | some v =>
    let prefixStr := if currency = "CAD" then "C$" else "$"
    if v ≥ 1000000000000 then prefixStr ++ fmtFixed ((v : ℚ) / 1000000000000) 2 ++ "T"
    else if v ≥ 1000000000 then prefixStr ++ fmtFixed ((v : ℚ) / 1000000000) 2 ++ "B"
    else if v ≥ 1000000 then prefixStr ++ fmtFixed ((v : ℚ) / 1000000) 2 ++ "M"
    else prefixStr ++ commaGroupInt v

/-- `_fmt_volume`: format a volume number with M/K suffix. -/
def _fmt_volume (value : Option Int) : String :=
  match value with
  | none => "N/A"
  | some v =>
    if v ≥ 1000000 then fmtFixed ((v : ℚ) / 1000000) 1 ++ "M"
    else if v ≥ 1000 then fmtFixed ((v : ℚ) / 1000) 1 ++ "K"
    else toString v

/-- `_fmt_float`: format a float to a fixed number of decimal places. -/
def _fmt_float (value : Option ℚ) (decimals : Nat) : String :=
  match value with
  | none => "N/A"
  | some v => fmtFixed v decimals

/-- `_fmt_pct`: format a decimal fraction as a percentage
(e.g. `0.0044` becomes `"0.44%"`). -/
def _fmt_pct (value : Option ℚ) : String :=
  match value with
  | none => "N/A"
  | some v => fmtFixed (v * 100) 2 ++ "%"

/-- Days-to-civil-date conversion (proleptic Gregorian), as used by
`datetime.fromtimestamp(..., tz=UTC)` for whole-second timestamps. -/
def civilFromDays (z0 : Int) : Int × Int × Int :=
  let z := z0 + 719468
  let era := Int.fdiv z 146097
  let doe := z - era * 146097
  let yoe := Int.fdiv (doe - Int.fdiv doe 1460 + Int.fdiv doe 36524 - Int.fdiv doe 146096) 365
  let y := yoe + era * 400
  let doy := doe - (365 * yoe + Int.fdiv yoe 4 - Int.fdiv yoe 100)
  let mp := Int.fdiv (5 * doy + 2) 153
  let d := doy - Int.fdiv (153 * mp + 2) 5 + 1
  let m := mp + (if mp < 10 then 3 else -9)
  (y + (if m ≤ 2 then 1 else 0), m, d)

/-- Python `str(n).zfill`-style rendering of a nonnegative component. -/
def zpad (w : Nat) (i : Int) : String := zfill w (toString i.toNat)

/-- `_unix_to_date`: convert a Unix timestamp (modelled as integer
seconds) to a `YYYY-MM-DD` date string; out-of-range timestamps (years
outside `datetime`'s 1..9999) raise in Python and yield `"N/A"`. -/
def _unix_to_date (timestamp : Option Int) : String :=
  match timestamp with
  | none => "N/A"
  | some ts =>
    let (y, m, d) := civilFromDays (Int.fdiv ts 86400)
    if y < 1 ∨ y > 9999 then "N/A"
    else zpad 4 y ++ "-" ++ zpad 2 m ++ "-" ++ zpad 2 d

/-- Python `int(...)` applied to a rational: truncation toward zero. -/
def pyTrunc (q : ℚ) : Int := Int.tdiv q.num (q.den : Int)

/-! ### Section builders (`formatter.py` lines 99-394) -/

/-- The line list of the `<ticker_info>` section. -/
def _build_ticker_info_lines (price : PriceData) (currency : String) : List String :=
  let sym := pyGetStr price.symbol "N/A"
  let name := pyGetStr price.company_name "N/A"
  let sector := pyGetStr price.sector "N/A"
  let industry := pyGetStr price.industry "N/A"
  [
    "<ticker_info>",
    "Symbol: " ++ sym,
    "Company: " ++ name,
    "Sector: " ++ sector,
    "Industry: " ++ industry,
    "Currency: " ++ currency,
    "Current Price: " ++ _fmt_price price.current_price currency ++ " (" ++
      _fmt_change price.day_change_dollars price.day_change_percent ++ ")",
    "Previous Close: " ++ _fmt_price price.previous_close currency,
    "52-Week Range: " ++ _fmt_price price.week_52_low currency ++ " — " ++
      _fmt_price price.week_52_high currency,
    "Market Cap: " ++ _fmt_large price.market_cap currency,
    "Avg Volume (10d): " ++ _fmt_volume price.volume_10day_avg,
    "Avg Volume (3m): " ++ _fmt_volume price.volume_3month_avg,
    "Trailing P/E: " ++ _fmt_float price.pe_trailing 2,
    "Forward P/E: " ++ _fmt_float price.pe_forward 2,
    "EPS (TTM): " ++ _fmt_float price.eps_trailing 2,
    "Dividend Yield: " ++ _fmt_pct price.dividend_yield,
    "Beta: " ++ _fmt_float price.beta 2,
    "</ticker_info>"]

/-- `_build_ticker_info`: the `<ticker_info>` section. -/
def _build_ticker_info (price : PriceData) (currency : String) : String :=
  String.intercalate "\n" (_build_ticker_info_lines price currency)

/-- The closes series exactly as `_build_price_data` extracts it:
`[b["close"] for b in bars if b.get("close") is not None]`. -/
def closesOf (bars : List Bar) : List ℚ := bars.filterMap (·.close)

/-- The trend classification computed inline in `_build_price_data`
(lines 168-179).  The Python float literals `1.02` / `0.98` are modelled
as the exact rationals they denote in the source text. -/
def trendNote (closes : List ℚ) : String :=
  if closes.length ≥ 10 then
    let n := closes.length
    let recent_avg : ℚ := (closes.drop (n - 5)).sum / 5
    let prior_avg : ℚ := ((closes.drop (n - 10)).take 5).sum / 5
    if recent_avg > prior_avg * (102/100) then
      "Recent trend: Upward (last 5 days avg above prior 5 days)."
    else if recent_avg < prior_avg * (98/100) then
      "Recent trend: Downward (last 5 days avg below prior 5 days)."
    else
      "Recent trend: Sideways (last 5 days avg near prior 5 days)."
  else ""

/-- Python `max` over a nonempty list (the empty case is never reached). -/
def listMaxQ : List ℚ → ℚ
  | [] => 0
  | x :: xs => xs.foldl max x

def listMinQ : List ℚ → ℚ
  | [] => 0
  | x :: xs => xs.foldl min x

/-- The line list of the `<price_data>` section in the non-empty case. -/
def _build_price_data_lines (price : PriceData) (currency : String) : List String :=
  let bars := price.ohlcv_30days.getD []
  let first := bars.headD {}
    let last := bars.getLastD {}
    let period_start := first.date.getD "N/A"
    let period_end := last.date.getD "N/A"
    let highs := bars.filterMap (·.high)
    let lows := bars.filterMap (·.low)
    let closes := closesOf bars
    let volumes := bars.filterMap (·.volume)
    let period_high : Option ℚ := if highs.isEmpty then none else some (listMaxQ highs)
    let period_low : Option ℚ := if lows.isEmpty then none else some (listMinQ lows)
    let open_price := first.openP
    let close_price := last.close
    let avg_volume : Option Int :=
      if volumes.isEmpty then none
      else some (pyTrunc ((volumes.sum : ℚ) / (volumes.length : ℚ)))
    let trend_note := trendNote closes
    let period_change :=
      match open_price, close_price with
      | some o, some c =>
        if o ≠ 0 ∧ c ≠ 0 then
          let chg : ℚ := (c - o) / o * 100
          let sign := if 0 ≤ chg then "+" else ""
          "Period change: " ++ sign ++ fmtFixed chg 2 ++ "% (" ++
            _fmt_price (some o) currency ++ " → " ++ _fmt_price (some c) currency ++ ")."
        else ""
      | _, _ => ""
    let table := String.intercalate "\n"
      ("Date         Open      High      Low       Close     Volume" ::
        (bars.drop (bars.length - 10)).map (fun bar =>
          padRight 12 (bar.date.getD "") ++ " " ++
          padLeft 9 (fmtFixed (bar.openP.getD 0) 2) ++ " " ++
          padLeft 9 (fmtFixed (bar.high.getD 0) 2) ++ " " ++
          padLeft 9 (fmtFixed (bar.low.getD 0) 2) ++ " " ++
          padLeft 9 (fmtFixed (bar.close.getD 0) 2) ++ " " ++
          padLeft 12 (commaGroupInt (bar.volume.getD 0))))
    [
      "<price_data>",
      "Period: " ++ period_start ++ " to " ++ period_end ++ " (" ++
        toString bars.length ++ " trading days)",
      period_change,
      "Period High: " ++ _fmt_price period_high currency ++ "  |  Period Low: " ++
        _fmt_price period_low currency,
      "Average Daily Volume: " ++ _fmt_volume avg_volume,
      trend_note,
      "",
      "Recent OHLCV (last 10 bars):",
      table,
      "</price_data>"]

/-- `_build_price_data`: the `<price_data>` section. -/
def _build_price_data (price : PriceData) (currency : String) : String :=
  let bars := price.ohlcv_30days.getD []
  if bars.isEmpty then "<price_data>\nNo OHLCV data available.\n</price_data>"
  else String.intercalate "\n" (_build_price_data_lines price currency)

/-- `_build_news_articles`: the `<news_articles>` section. -/
def _build_news_articles (articles : List Article) (trimmed_count : Nat) : String :=
  let count := articles.length
  let note := if trimmed_count ≠ 0 then " trimmed=\"" ++ toString trimmed_count ++ "\"" else ""
  let header := "<news_articles count=\"" ++ toString count ++ "\"" ++ note ++ ">"
  let body :=
    if articles.isEmpty then ["No news articles found for this period."]
    else articles.flatMap (fun article =>
      let source := _escape (pyGetStr article.source "Unknown")
      let date := (article.published_at.getD "").take 10
      let title := _escape (article.title.getD "")
      let summary := _escape (article.summary.getD "")
      let provider := article.provider.getD ""
      ["<article source=\"" ++ source ++ "\" date=\"" ++ date ++
         "\" provider=\"" ++ provider ++ "\">",
       "Headline: " ++ title] ++
      (if summary ≠ "" then ["Summary: " ++ summary] else []) ++
      ["</article>"])
  String.intercalate "\n" (header :: (body ++ ["</news_articles>"]))

/-- `_build_reddit_posts`: the `<reddit_posts>` section. -/
def _build_reddit_posts (posts : List RPost) (stats : RStats) (trimmed_count : Nat) : String :=
  let count := posts.length
  let total_posts := stats.total_posts.getD (count : Int)
  let breakdown := stats.subreddit_breakdown.getD []
  let subreddits_str :=
    if breakdown ≠ [] then
      String.intercalate "," (sortStrings (breakdown.map Prod.fst))
    else "N/A"
  let note := if trimmed_count ≠ 0 then " trimmed=\"" ++ toString trimmed_count ++ "\"" else ""
  let header := "<reddit_posts count=\"" ++ toString count ++ "\" subreddits=\"" ++
    subreddits_str ++ "\"" ++ note ++ ">"
  let avg_score := match stats.avg_score with | some n => n.str | none => "0"
  let total_comments := stats.total_comments.getD 0
  let mostActive := breakdown.foldl
    (fun (acc : String × Int) sc => if sc.2 > acc.2 then (sc.1, sc.2) else acc) ("N/A", 0)
  let summary := ["<summary>",
    "Total posts found: " ++ toString total_posts,
    "Posts included: " ++ toString count,
    "Average post score: " ++ avg_score,
    "Total comments: " ++ toString total_comments,
    "Most active subreddit: " ++ mostActive.1 ++ " (" ++ toString mostActive.2 ++ " posts)",
    "</summary>"]
  let body :=
    if posts.isEmpty then ["No Reddit posts found for this ticker."]
    else posts.flatMap (fun post =>
      let subreddit := _escape (post.subreddit.getD "")
      let score := post.score.getD 0
      let num_comments := post.num_comments.getD 0
      let date_str := _unix_to_date post.created_utc
      let title := _escape (post.title.getD "")
      let postBody := _escape (pyStrip (post.body.getD ""))
      let top_comments := post.top_comments.getD []
      ["<post subreddit=\"" ++ subreddit ++ "\" score=\"" ++ toString score ++
         "\" comments=\"" ++ toString num_comments ++ "\" date=\"" ++ date_str ++ "\">",
       "Title: " ++ title] ++
      (if postBody ≠ "" then
        ["Body: " ++ (if postBody.length > 500 then postBody.take 500 ++ "..." else postBody)]
       else []) ++
      (if top_comments ≠ [] then
        "Top comments:" ::
          top_comments.filterMap (fun c =>
            let c_body := _escape (pyStrip (c.body.getD ""))
            let c_score := c.score.getD 0
            if c_body ≠ "" then some ("  [" ++ toString c_score ++ "] " ++ c_body.take 200)
            else none)
       else []) ++
      ["</post>"])
  String.intercalate "\n" (header :: (summary ++ body ++ ["</reddit_posts>"]))

/-- `_build_sec_filings`: the `<sec_filings>` section. -/
def _build_sec_filings (sec : SecData) : String :=
  let filings := sec.filings.getD []
  let is_us := sec.is_us_listed.getD true
  let note := pyGetStr sec.note ""
  let count := filings.length
  let header := "<sec_filings count=\"" ++ toString count ++ "\">"
  let body :=
    if ¬ is_us then [if note ≠ "" then note else "No SEC filings (non-US listed security)."]
    else if filings.isEmpty then [if note ≠ "" then note else "No recent SEC filings found."]
    else
      (if note ≠ "" then ["Note: " ++ note] else []) ++
      filings.flatMap (fun filing =>
        let form_type := _escape (filing.form_type.getD "")
        let date := filing.filing_date.getD ""
        let description := _escape (filing.description.getD "")
        let url := filing.url.getD ""
        ["<filing type=\"" ++ form_type ++ "\" date=\"" ++ date ++ "\">"] ++
        (if description ≠ "" then ["Description: " ++ description] else []) ++
        ["URL: " ++ url] ++
        (match filing.content with
         | some content => if content ≠ "" then ["Content: " ++ content] else []
         | none => []) ++
        ["</filing>"])
  String.intercalate "\n" (header :: (body ++ ["</sec_filings>"]))

/-- Month names for `strftime('%B')`. -/
def monthName : Nat → String
  | 1 => "January" | 2 => "February" | 3 => "March" | 4 => "April"
  | 5 => "May" | 6 => "June" | 7 => "July" | 8 => "August"
  | 9 => "September" | 10 => "October" | 11 => "November" | 12 => "December"
  | _ => ""

def isLeapYear (y : Nat) : Bool :=
  y % 4 = 0 && (y % 100 ≠ 0 || y % 400 = 0)

def daysInMonth (y m : Nat) : Nat :=
  if m = 2 then (if isLeapYear y then 29 else 28)
  else if m = 4 ∨ m = 6 ∨ m = 9 ∨ m = 11 then 30
  else 31

/-- `datetime.strptime(s, "%Y-%m-%d")`: `%Y` matches exactly four
digits, `%m`/`%d` one or two; an invalid calendar date (or year 0)
raises `ValueError`, modelled as `none`. -/
def splitOnChar (sep : Char) : List Char → List (List Char)
  | [] => [[]]
  | c :: rest =>
    let r := splitOnChar sep rest
    if c = sep then [] :: r
    else match r with
      | h :: t => (c :: h) :: t
      | [] => [[c]]

def digitsToNat (l : List Char) : Nat :=
  l.foldl (fun acc c => acc * 10 + (c.toNat - 48)) 0

def parseYmd (s : String) : Option (Nat × Nat × Nat) :=
  match splitOnChar '-' s.toList with
  | [ys, ms, ds] =>
    if ys.length = 4 ∧ ys.all Char.isDigit ∧
       1 ≤ ms.length ∧ ms.length ≤ 2 ∧ ms.all Char.isDigit ∧
       1 ≤ ds.length ∧ ds.length ≤ 2 ∧ ds.all Char.isDigit then
      let y := digitsToNat ys
      let m := digitsToNat ms
      let d := digitsToNat ds
      if 1 ≤ y ∧ 1 ≤ m ∧ m ≤ 12 ∧ 1 ≤ d ∧ d ≤ daysInMonth y m then some (y, m, d)
      else none
    else none
  | _ => none

/-- `_build_earnings`: the `<earnings>` section. -/
def _build_earnings (earnings : EarningsData) : String :=
  let lq := earnings.last_quarter.getD {}
  let next_str :=
    match earnings.next_earnings_date with
    | some nd =>
      if nd ≠ "" then
        let base :=
          match parseYmd nd with
          | some (y, m, d) => monthName m ++ " " ++ toString d ++ ", " ++ zfill 4 (toString y)
          | none => nd
        base ++
          (match earnings.days_until_next with
           | some du => " (" ++ toString du ++ " days away)"
           | none => "")
      else "Unknown"
    | none => "Unknown"
  let beat_or_miss := pyGetStr lq.beat_or_miss "N/A"
  let period := pyGetStr lq.period "N/A"
  let last_q_parts := ["Result: " ++ beat_or_miss] ++
    (match lq.eps_estimate, lq.eps_actual with
     | some est, some act =>
       ["EPS estimate " ++ _fmt_float (some est) 2 ++ " vs actual " ++ _fmt_float (some act) 2]
     | _, _ => []) ++
    (match lq.eps_surprise_pct with
     | some sp => ["EPS surprise: " ++ (if 0 ≤ sp then "+" else "") ++ fmtFixed sp 2 ++ "%"]
     | none => [])
  String.intercalate "\n" [
    "<earnings>",
    "Next earnings date: " ++ next_str,
    "Most recent quarter (" ++ period ++ "): " ++ String.intercalate ", " last_q_parts,
    "</earnings>"]

/-! ### The assembler (`formatter.py` lines 20-93) -/

def _CHARS_PER_TOKEN : Nat := 4
def _MAX_CHARS : Nat := 80000 * _CHARS_PER_TOKEN

/-- `format_context`: build the full LLM context bundle from all
fetcher outputs.  `remaining_budget // 2` uses Python floor division,
`Int.fdiv` here. -/
def format_context (price_data : PriceData) (news_data : NewsData)
    (reddit_data : RedditData) (sec_data : SecData)
    (earnings_data : EarningsData) : String :=
  let currency := pyGetStr price_data.currency "USD"
  let ticker_section := _build_ticker_info price_data currency
  let price_section := _build_price_data price_data currency
  let earnings_section := _build_earnings earnings_data
  let sec_section := _build_sec_filings sec_data
  let articles := news_data.articles.getD []
  let posts := reddit_data.posts.getD []
  let stats := reddit_data.stats.getD {}
  let fixed := String.intercalate "\n\n"
    [ticker_section, price_section, earnings_section, sec_section]
  let remaining_budget : Int := (_MAX_CHARS : Int) - (fixed.length : Int)
  let newsTrim := _trim_articles articles (Int.fdiv remaining_budget 2)
  let redditTrim := _trim_posts posts (Int.fdiv remaining_budget 2)
  let news_section := _build_news_articles newsTrim.1 newsTrim.2
  let reddit_section := _build_reddit_posts redditTrim.1 stats redditTrim.2
  String.intercalate "\n\n"
    [ticker_section, price_section, news_section, reddit_section,
     sec_section, earnings_section]

/-! ### JSON values and `json.loads` (`llm.py` dependencies)

`json.loads` is modelled by a fuel-based recursive-descent parser.
Deliberate restrictions, none of which is exercised by the theorems
below: numbers must be integer literals (no fraction/exponent — the
model parser *fails* where `json.loads` would parse a float), and an
object is kept as its ordered key/value list. -/

inductive JsonV where
  | null
  | bool (b : Bool)
  | num (i : Int)
  | str (s : String)
  | arr (l : List JsonV)
  | obj (kvs : List (String × JsonV))

/-- JSON insignificant whitespace. -/
def jsonWs (l : List Char) : List Char :=
  l.dropWhile fun c => c = ' ' ∨ c = '\t' ∨ c = '\n' ∨ c = '\r'

def braceOpen : Char := Char.ofNat 123
def braceClose : Char := Char.ofNat 125

/-- Parse the remainder of a JSON string literal (the opening quote is
already consumed), handling the standard escapes. -/
def parseJString : Nat → List Char → Option (String × List Char)
  | 0, _ => none
  | _, [] => none
  | fuel + 1, c :: rest =>
    if c = '"' then some ("", rest)
    else if c = '\\' then
      match rest with
      | [] => none
      | e :: rest2 =>
        let cont (ch : Char) (rem : List Char) : Option (String × List Char) :=
          (parseJString fuel rem).map fun (s, r) => (String.mk (ch :: s.toList), r)
        if e = '"' then cont '"' rest2
        else if e = '\\' then cont '\\' rest2
        else if e = '/' then cont '/' rest2
        else if e = 'b' then cont (Char.ofNat 8) rest2
        else if e = 'f' then cont (Char.ofNat 12) rest2
        else if e = 'n' then cont '\n' rest2
        else if e = 'r' then cont '\r' rest2
        else if e = 't' then cont '\t' rest2
        else if e = 'u' then
          match rest2 with
          | h1 :: h2 :: h3 :: h4 :: rest3 =>
            let isHex (c : Char) : Prop :=
              c.isDigit ∨ ('a' ≤ c ∧ c ≤ 'f') ∨ ('A' ≤ c ∧ c ≤ 'F')
            if isHex h1 ∧ isHex h2 ∧ isHex h3 ∧ isHex h4 then
              let hv (c : Char) : Nat :=
                if c.isDigit then c.toNat - 48
                else if 'a' ≤ c ∧ c ≤ 'f' then c.toNat - 87
                else c.toNat - 55
              cont (Char.ofNat (((hv h1 * 16 + hv h2) * 16 + hv h3) * 16 + hv h4)) rest3
            else none
          | _ => none
        else none
    else (parseJString fuel rest).map fun (s, r) => (String.mk (c :: s.toList), r)

/-- Parse a JSON integer literal (sign and digits, no leading zeros). -/
def parseJInt (l : List Char) : Option (Int × List Char) :=
  let (neg, l1) := match l with
    | '-' :: r => (true, r)
    | _ => (false, l)
  let digits := l1.takeWhile Char.isDigit
  let rest := l1.dropWhile Char.isDigit
  if digits = [] then none
  else if digits.length > 1 ∧ digits.headD '0' = '0' then none
  else
    -- a following '.', 'e' or 'E' would start a float literal, which
    -- this model deliberately rejects
    match rest with
    | c :: _ => if c = '.' ∨ c = 'e' ∨ c = 'E' then none else
        let n : Nat := digits.foldl (fun acc c => acc * 10 + (c.toNat - 48)) 0
        some (if neg then -(n : Int) else (n : Int), rest)
    | [] =>
        let n : Nat := digits.foldl (fun acc c => acc * 10 + (c.toNat - 48)) 0
        some (if neg then -(n : Int) else (n : Int), rest)

mutual

def parseJValue : Nat → List Char → Option (JsonV × List Char)
  | 0, _ => none
  | fuel + 1, l =>
    match jsonWs l with
    | [] => none
    | c :: rest =>
      if c = '"' then (parseJString fuel rest).map fun (s, r) => (JsonV.str s, r)
      else if c = braceOpen then
        match jsonWs rest with
        | c2 :: rest2 =>
          if c2 = braceClose then some (JsonV.obj [], rest2)
          else (parseJMembers fuel (c2 :: rest2)).map fun (kvs, r) => (JsonV.obj kvs, r)
        | [] => none
      else if c = '[' then
        match jsonWs rest with
        | c2 :: rest2 =>
          if c2 = ']' then some (JsonV.arr [], rest2)
          else (parseJItems fuel (c2 :: rest2)).map fun (items, r) => (JsonV.arr items, r)
        | [] => none
      else if c = 't' then
        if ['r', 'u', 'e'].isPrefixOf rest then some (JsonV.bool true, rest.drop 3) else none
      else if c = 'f' then
        if ['a', 'l', 's', 'e'].isPrefixOf rest then some (JsonV.bool false, rest.drop 4) else none
      else if c = 'n' then
        if ['u', 'l', 'l'].isPrefixOf rest then some (JsonV.null, rest.drop 3) else none
      else (parseJInt (c :: rest)).map fun (i, r) => (JsonV.num i, r)

/-- One or more `"key": value` members, then `}`. -/
def parseJMembers : Nat → List Char → Option (List (String × JsonV) × List Char)
  | 0, _ => none
  | fuel + 1, l =>
    match jsonWs l with
    | '"' :: rest =>
      match parseJString fuel rest with
      | none => none
      | some (key, r1) =>
        match jsonWs r1 with
        | ':' :: r2 =>
          match parseJValue fuel r2 with
          | none => none
          | some (v, r3) =>
            match jsonWs r3 with
            | ',' :: r4 =>
              (parseJMembers fuel r4).map fun (kvs, r5) => ((key, v) :: kvs, r5)
            | c :: r4 =>
              if c = braceClose then some ([(key, v)], r4) else none
            | [] => none
        | _ => none
    | _ => none

/-- One or more array items, then `]`. -/
def parseJItems : Nat → List Char → Option (List JsonV × List Char)
  | 0, _ => none
  | fuel + 1, l =>
    match parseJValue fuel l with
    | none => none
    | some (v, r1) =>
      match jsonWs r1 with
      | ',' :: r2 => (parseJItems fuel r2).map fun (items, r3) => (v :: items, r3)
      | ']' :: r2 => some ([v], r2)
      | _ => none

end

/-- `json.loads`: parse a full document; trailing garbage raises
(modelled as `none`). -/
def json_loads (s : String) : Option JsonV :=
  match parseJValue (2 * s.length + 16) s.toList with
  | some (v, rest) => if jsonWs rest = [] then some v else none
  | none => none

/-! ### `_parse_json_response` (`llm.py` lines 186-218) -/

def backtick : Char := Char.ofNat 96

def fenceMarker : List Char := [backtick, backtick, backtick]

/-- The suffix right after the first occurrence of the triple-backtick
marker, if any. -/
def findFence : List Char → Option (List Char)
  | [] => none
  | c :: rest =>
    if fenceMarker.isPrefixOf (c :: rest) then some ((c :: rest).drop 3)
    else findFence rest

/-- The characters strictly before the next triple-backtick marker, if
one occurs (the lazy `([\s\S]*?)` group). -/
def beforeFence : List Char → Option (List Char)
  | [] => none
  | c :: rest =>
    if fenceMarker.isPrefixOf (c :: rest) then some []
    else (beforeFence rest).map (c :: ·)

/-- Regex `\s` (ASCII part, which is all the texts here use). -/
def isRegexSpace (c : Char) : Bool :=
  c = ' ' ∨ c = '\t' ∨ c = '\n' ∨ c = '\r' ∨ c = Char.ofNat 11 ∨ c = Char.ofNat 12

/-- Group 1 of `re.search(r"```(?:json)?\s*([\s\S]*?)```", text)`. -/
def fenceContent (l : List Char) : Option (List Char) :=
  match findFence l with
  | none => none
  | some after1 =>
    let after2 := if ['j', 's', 'o', 'n'].isPrefixOf after1 then after1.drop 4 else after1
    beforeFence (after2.dropWhile isRegexSpace)

/-- The suffix of the text from the first `'{'` on, if any
(`text.find("{")` + slice). -/
def fromBrace : List Char → Option (List Char)
  | [] => none
  | c :: rest => if c = braceOpen then some (c :: rest) else fromBrace rest

/-- `_parse_json_response`: extract and parse a JSON object from the
model's response text, or `None`. -/
def _parse_json_response (text : String) : Option (List (String × JsonV)) :=
  let text1 := pyStrip text
  let text2 :=
    match fenceContent text1.toList with
    | some inner => pyStrip (String.mk inner)
    | none => text1
  let text3 :=
    if text2.toList.headD ' ' = braceOpen then text2
    else
      match fromBrace text2.toList with
      | some suffix => String.mk suffix
      | none => text2
  match json_loads text3 with
  | some (JsonV.obj kvs) => some kvs
  | some _ => none
  | none => none

/-! ### `analyze` (`llm.py` lines 91-183)

The Anthropic client is abstracted as a map from the attempt number to
that attempt's outcome (the exception raised, or the response text).
`analyze` returns the terminal result together with the list of backoff
sleeps performed (in order, in seconds) and the number of API calls
made.  `raise SystemExit(4)` is the `exit 4` result. -/

def LLM_MAX_RETRIES : Nat := 3

def LLM_RETRY_BASE_SECONDS : ℚ := 1

inductive ApiOutcome where
  | success (text : String)
  | rateLimit
  | statusErr (code : Nat)
  | connErr
deriving DecidableEq

inductive AnalyzeResult where
  | ok (d : List (String × JsonV))
  | exit (code : Nat)

def analyzeLoop (endpoint : Nat → ApiOutcome) : List Nat → AnalyzeResult × List ℚ × Nat
  | [] => (.exit 4, [], 0)
  | attempt :: rest =>
    match endpoint attempt with
    | .success raw_text =>
      match _parse_json_response raw_text with
      | some parsed => (.ok parsed, [], 1)
      | none =>
        if attempt = LLM_MAX_RETRIES then
          (.ok [("raw_response", JsonV.str raw_text), ("_parse_error", JsonV.bool true)], [], 1)
        else
          let r := analyzeLoop endpoint rest
          (r.1, r.2.1, r.2.2 + 1)
    | .rateLimit =>
      let wait := LLM_RETRY_BASE_SECONDS * 2 ^ (attempt - 1)
      let r := analyzeLoop endpoint rest
      (r.1, wait :: r.2.1, r.2.2 + 1)
    | .statusErr code =>
      if code ≥ 500 then
        let wait := LLM_RETRY_BASE_SECONDS * 2 ^ (attempt - 1)
        let r := analyzeLoop endpoint rest
        (r.1, wait :: r.2.1, r.2.2 + 1)
      else (.exit 4, [], 1)
    | .connErr =>
      let wait := LLM_RETRY_BASE_SECONDS * 2 ^ (attempt - 1)
      let r := analyzeLoop endpoint rest
      (r.1, wait :: r.2.1, r.2.2 + 1)

def analyze (endpoint : Nat → ApiOutcome) : AnalyzeResult × List ℚ × Nat :=
  analyzeLoop endpoint (List.range' 1 LLM_MAX_RETRIES)

/-! ### A small heap model for the in-place trimming (claim about
aliasing)

Python lists are mutable heap objects: `_trim_articles` pops from the
very list object it is handed, while `format_context` passes it a fresh
copy (`list(...)`) of the caller's list.  To state that the caller's
data survives, lists reachable from the fetcher dicts are modelled as
cells in an explicit store, addressed by index. -/

structure ListHeap where
  articleCells : List (List Article)
  postCells : List (List RPost)

def readArticlesAt (s : ListHeap) (r : Nat) : List Article :=
  s.articleCells.getD r []

def readPostsAt (s : ListHeap) (r : Nat) : List RPost :=
  s.postCells.getD r []

/-- `list(x)`: allocate a fresh cell holding a copy of the elements. -/
def allocArticles (s : ListHeap) (l : List Article) : ListHeap × Nat :=
  ({ s with articleCells := s.articleCells ++ [l] }, s.articleCells.length)

def allocPosts (s : ListHeap) (l : List RPost) : ListHeap × Nat :=
  ({ s with postCells := s.postCells ++ [l] }, s.postCells.length)

/-- `_trim_articles` run against the list object in cell `r`: the
repeated `pop()` mutates that cell in place. -/
def trimArticlesAt (s : ListHeap) (r : Nat) (budget : Int) : ListHeap × Nat :=
  let res := _trim_articles (readArticlesAt s r) budget
  ({ s with articleCells := s.articleCells.set r res.1 }, res.2)

def trimPostsAt (s : ListHeap) (r : Nat) (budget : Int) : ListHeap × Nat :=
  let res := _trim_posts (readPostsAt s r) budget
  ({ s with postCells := s.postCells.set r res.1 }, res.2)

/-- The caller's `news_data` dict holds a reference to its article list. -/
structure NewsDataRef where
  articles : Option Nat := none

/-- The caller's `reddit_data` dict: a reference to its post list plus
the (immutable) stats payload. -/
structure RedditDataRef where
  posts : Option Nat := none
  stats : Option RStats := none

/-- `format_context` over the store: mirrors the definition above, with
the `list(...)` copies allocated as fresh cells and the trimmers
mutating those fresh cells in place. -/
def format_context_heap (price_data : PriceData) (news_data : NewsDataRef)
    (reddit_data : RedditDataRef) (sec_data : SecData)
    (earnings_data : EarningsData) (s0 : ListHeap) : String × ListHeap :=
  let currency := pyGetStr price_data.currency "USD"
  let ticker_section := _build_ticker_info price_data currency
  let price_section := _build_price_data price_data currency
  let earnings_section := _build_earnings earnings_data
  let sec_section := _build_sec_filings sec_data
  let (s1, ra) := allocArticles s0
    (match news_data.articles with | some r => readArticlesAt s0 r | none => [])
  let (s2, rp) := allocPosts s1
    (match reddit_data.posts with | some r => readPostsAt s1 r | none => [])
  let stats := reddit_data.stats.getD {}
  let fixed := String.intercalate "\n\n"
    [ticker_section, price_section, earnings_section, sec_section]
  let remaining_budget : Int := (_MAX_CHARS : Int) - (fixed.length : Int)
  let (s3, news_trimmed) := trimArticlesAt s2 ra (Int.fdiv remaining_budget 2)
  let (s4, reddit_trimmed) := trimPostsAt s3 rp (Int.fdiv remaining_budget 2)
  let news_section := _build_news_articles (readArticlesAt s4 ra) news_trimmed
  let reddit_section := _build_reddit_posts (readPostsAt s4 rp) stats reddit_trimmed
  (String.intercalate "\n\n"
    [ticker_section, price_section, news_section, reddit_section,
     sec_section, earnings_section], s4)

/-- Dereference a `NewsDataRef` into the plain value the pure
`format_context` consumes. -/
def derefNews (s : ListHeap) (n : NewsDataRef) : NewsData :=
  { articles := n.articles.map (readArticlesAt s) }

def derefReddit (s : ListHeap) (r : RedditDataRef) : RedditData :=
  { posts := r.posts.map (readPostsAt s), stats := r.stats }

/-- The retryable transport/service failures: rate limit, connection
failure, 5xx status. -/
def retryableOutcome : ApiOutcome → Prop
  | .rateLimit => True
  | .connErr => True
  | .statusErr c => 500 ≤ c
  | .success _ => False

/-! ### Concrete fixtures used by counterexamples and witnesses -/

/-- An article source name of 400,000 characters: the size estimator
never reads the `source` field, but the renderer embeds it. -/
def cexSource : String := String.mk (List.replicate 400000 'a')

def cexArticle : Article := { source := some cexSource }

def cexNews : NewsData := { articles := some [cexArticle] }

def cexReddit : RedditData := { posts := some [({} : RPost)] }

/-- A simulated endpoint that is rate-limited on attempt 1 and answers
attempt 2 with a 403 client error. -/
def cexEndpoint403 : Nat → ApiOutcome :=
  fun n => if n = 1 then ApiOutcome.rateLimit else ApiOutcome.statusErr 403

/-! ## Theorems -/

theorem trimLoopArticles_spec (l : List Article) (budget : Int) (removed : Nat) :
    (∃ t, (trimLoopArticles l budget removed).1 ++ t = l) ∧
    (trimLoopArticles l budget removed).2 =
      removed + (l.length - (trimLoopArticles l budget removed).1.length) ∧
    ((_estimate_articles_size (trimLoopArticles l budget removed).1 : Int) ≤ budget ∨
      (trimLoopArticles l budget removed).1 = []) := by
  induction l, budget, removed using trimLoopArticles.induct with
  | case1 l budget removed hcond ih =>
    rw [trimLoopArticles, dif_pos hcond]
    obtain ⟨⟨t, ht⟩, hc, hterm⟩ := ih
    refine ⟨⟨t ++ [l.getLast hcond.1], ?_⟩, ?_, hterm⟩
    · rw [← List.append_assoc, ht, List.dropLast_append_getLast]
    · have hlen := congrArg List.length ht
      simp only [List.length_append] at hlen
      have hld : l.dropLast.length = l.length - 1 := by simp [List.length_dropLast]
      have hne : l.length ≠ 0 := fun h => hcond.1 (List.eq_nil_of_length_eq_zero h)
      omega
  | case2 l budget removed hcond =>
    rw [trimLoopArticles, dif_neg hcond]
    push_neg at hcond
    refine ⟨⟨[], by simp⟩, by simp, ?_⟩
    by_cases he : l = []
    · exact Or.inr he
    · exact Or.inl (hcond he)

theorem trimLoopPosts_spec (l : List RPost) (budget : Int) (removed : Nat) :
    (∃ t, (trimLoopPosts l budget removed).1 ++ t = l) ∧
    (trimLoopPosts l budget removed).2 =
      removed + (l.length - (trimLoopPosts l budget removed).1.length) ∧
    ((_estimate_posts_size (trimLoopPosts l budget removed).1 : Int) ≤ budget ∨
      (trimLoopPosts l budget removed).1 = []) := by
  induction l, budget, removed using trimLoopPosts.induct with
  | case1 l budget removed hcond ih =>
    rw [trimLoopPosts, dif_pos hcond]
    obtain ⟨⟨t, ht⟩, hc, hterm⟩ := ih
    refine ⟨⟨t ++ [l.getLast hcond.1], ?_⟩, ?_, hterm⟩
    · rw [← List.append_assoc, ht, List.dropLast_append_getLast]
    · have hlen := congrArg List.length ht
      simp only [List.length_append] at hlen
      have hld : l.dropLast.length = l.length - 1 := by simp [List.length_dropLast]
      have hne : l.length ≠ 0 := fun h => hcond.1 (List.eq_nil_of_length_eq_zero h)
      omega
  | case2 l budget removed hcond =>
    rw [trimLoopPosts, dif_neg hcond]
    push_neg at hcond
    refine ⟨⟨[], by simp⟩, by simp, ?_⟩
    by_cases he : l = []
    · exact Or.inr he
    · exact Or.inl (hcond he)

theorem trim_articles_spec (articles : List Article) (budget : Int) :
    ((_estimate_articles_size articles : Int) ≤ budget →
      _trim_articles articles budget = (articles, 0)) ∧
    (∃ t, (_trim_articles articles budget).1 ++ t = articles) ∧
    (_trim_articles articles budget).2 =
      articles.length - (_trim_articles articles budget).1.length ∧
    ((_estimate_articles_size (_trim_articles articles budget).1 : Int) ≤ budget ∨
      (_trim_articles articles budget).1 = []) := by
  unfold _trim_articles
  by_cases h : (_estimate_articles_size articles : Int) ≤ budget
  · rw [if_pos h]
    exact ⟨fun _ => rfl, ⟨[], by simp⟩, by simp, Or.inl h⟩
  · rw [if_neg h]
    have hs := trimLoopArticles_spec articles budget 0
    exact ⟨fun hc => absurd hc h, hs.1, by simpa using hs.2.1, hs.2.2⟩

theorem trim_posts_spec (posts : List RPost) (budget : Int) :
    ((_estimate_posts_size posts : Int) ≤ budget →
      _trim_posts posts budget = (posts, 0)) ∧
    (∃ t, (_trim_posts posts budget).1 ++ t = posts) ∧
    (_trim_posts posts budget).2 =
      posts.length - (_trim_posts posts budget).1.length ∧
    ((_estimate_posts_size (_trim_posts posts budget).1 : Int) ≤ budget ∨
      (_trim_posts posts budget).1 = []) := by
  unfold _trim_posts
  by_cases h : (_estimate_posts_size posts : Int) ≤ budget
  · rw [if_pos h]
    exact ⟨fun _ => rfl, ⟨[], by simp⟩, by simp, Or.inl h⟩
  · rw [if_neg h]
    have hs := trimLoopPosts_spec posts budget 0
    exact ⟨fun hc => absurd hc h, hs.1, by simpa using hs.2.1, hs.2.2⟩

/-- C1: for every list of news articles (or social posts) and every
integer budget, if the size estimate is already ≤ budget the trimmer
returns the list unchanged with a removed count of zero; in every case
it removes elements only from the tail (the result is a prefix of the
input), the removed count is the number of elements dropped, and on
return either the estimate of the remaining list is ≤ budget or the
remaining list is empty. -/
theorem C1_trimmer_spec (articles : List Article) (posts : List RPost) (budget : Int) :
    (((_estimate_articles_size articles : Int) ≤ budget →
        _trim_articles articles budget = (articles, 0)) ∧
      (∃ t, (_trim_articles articles budget).1 ++ t = articles) ∧
      (_trim_articles articles budget).2 =
        articles.length - (_trim_articles articles budget).1.length ∧
      ((_estimate_articles_size (_trim_articles articles budget).1 : Int) ≤ budget ∨
        (_trim_articles articles budget).1 = [])) ∧
    (((_estimate_posts_size posts : Int) ≤ budget →
        _trim_posts posts budget = (posts, 0)) ∧
      (∃ t, (_trim_posts posts budget).1 ++ t = posts) ∧
      (_trim_posts posts budget).2 =
        posts.length - (_trim_posts posts budget).1.length ∧
      ((_estimate_posts_size (_trim_posts posts budget).1 : Int) ≤ budget ∨
        (_trim_posts posts budget).1 = [])) :=
  ⟨trim_articles_spec articles budget, trim_posts_spec posts budget⟩

/-- Witness for C1 at a concrete input. -/
theorem C1_trimmer_spec_witness :
    _trim_articles [cexArticle] 200 = ([cexArticle], 0) ∧
    _trim_posts [({} : RPost)] 200 = ([({} : RPost)], 0) :=
  ⟨(C1_trimmer_spec [cexArticle] [({} : RPost)] 200).1.1 (by decide),
   (C1_trimmer_spec [cexArticle] [({} : RPost)] 200).2.1 (by decide)⟩

theorem estimate_articles_foldl (l : List Article) (b : Nat) :
    l.foldl (fun total a =>
        total + (a.title.getD "").length + (a.summary.getD "").length + 80) b =
      b + (l.map fun a =>
        (a.title.getD "").length + (a.summary.getD "").length + 80).sum := by
  induction l generalizing b with
  | nil => simp
  | cons x xs ih => simp [ih]; omega

theorem estimate_articles_eq_sum (l : List Article) :
    _estimate_articles_size l =
      (l.map fun a =>
        (a.title.getD "").length + (a.summary.getD "").length + 80).sum := by
  unfold _estimate_articles_size
  simpa using estimate_articles_foldl l 0

theorem comments_foldl (cs : List RComment) (b : Nat) :
    cs.foldl (fun t c => t + min (c.body.getD "").length 200 + 20) b =
      b + (cs.map fun c => min (c.body.getD "").length 200 + 20).sum := by
  induction cs generalizing b with
  | nil => simp
  | cons x xs ih => simp [ih]; omega

theorem estimate_posts_foldl (l : List RPost) (b : Nat) :
    l.foldl (fun total p =>
        (p.top_comments.getD []).foldl
          (fun t c => t + min (c.body.getD "").length 200 + 20)
          (total + (p.title.getD "").length + min (p.body.getD "").length 500 + 150)) b =
      b + (l.map fun p =>
        (p.title.getD "").length + min (p.body.getD "").length 500 + 150 +
          ((p.top_comments.getD []).map
            (fun c => min (c.body.getD "").length 200 + 20)).sum).sum := by
  induction l generalizing b with
  | nil => simp
  | cons x xs ih =>
    rw [List.foldl_cons, comments_foldl, ih]
    simp only [List.map_cons, List.sum_cons]
    omega

theorem estimate_posts_eq_sum (l : List RPost) :
    _estimate_posts_size l =
      (l.map fun p =>
        (p.title.getD "").length + min (p.body.getD "").length 500 + 150 +
          ((p.top_comments.getD []).map
            (fun c => min (c.body.getD "").length 200 + 20)).sum).sum := by
  unfold _estimate_posts_size
  simpa using estimate_posts_foldl l 0

/-- C3: the size estimators are monotonic in list length for fixed
content: removing any one element never increases the estimate (each
element contributes a nonnegative amount to the sum). -/
theorem C3_estimators_monotonic (pre post : List Article) (a : Article)
    (preP postP : List RPost) (p : RPost) :
    _estimate_articles_size (pre ++ post) ≤
      _estimate_articles_size (pre ++ a :: post) ∧
    _estimate_posts_size (preP ++ postP) ≤
      _estimate_posts_size (preP ++ p :: postP) := by
  constructor
  · simp only [estimate_articles_eq_sum, List.map_append, List.sum_append,
      List.map_cons, List.sum_cons]
    omega
  · simp only [estimate_posts_eq_sum, List.map_append, List.sum_append,
      List.map_cons, List.sum_cons]
    omega

theorem range_one_three : List.range' 1 LLM_MAX_RETRIES = [1, 2, 3] := rfl

/-- C4: if response coercion fails on every attempt up to the cap
(`LLM_MAX_RETRIES = 3`), `analyze` returns (does not raise) the fallback
mapping whose `raw_response` field is the last attempt's text and which
carries the `_parse_error` flag; no backoff sleep occurs between
parse-failure attempts. -/
theorem C4_parse_failure_fallback (e : Nat → ApiOutcome) (t1 t2 t3 : String)
    (h1 : e 1 = ApiOutcome.success t1) (h2 : e 2 = ApiOutcome.success t2)
    (h3 : e 3 = ApiOutcome.success t3)
    (p1 : _parse_json_response t1 = none) (p2 : _parse_json_response t2 = none)
    (p3 : _parse_json_response t3 = none) :
    analyze e =
      (AnalyzeResult.ok [("raw_response", JsonV.str t3), ("_parse_error", JsonV.bool true)],
        [], 3) := by
  simp only [analyze, range_one_three, analyzeLoop, h1, h2, h3, p1, p2, p3,
    LLM_MAX_RETRIES]
  rfl

/-- Witness for C4. -/
theorem C4_parse_failure_fallback_witness :
    analyze (fun _ => ApiOutcome.success "not json") =
      (AnalyzeResult.ok
        [("raw_response", JsonV.str "not json"), ("_parse_error", JsonV.bool true)],
        [], 3) :=
  C4_parse_failure_fallback (fun _ => ApiOutcome.success "not json")
    "not json" "not json" "not json" rfl rfl rfl rfl rfl rfl

theorem analyzeLoop_retryable_step (e : Nat → ApiOutcome) (a : Nat) (rest : List Nat)
    (hr : retryableOutcome (e a)) :
    analyzeLoop e (a :: rest) =
      ((analyzeLoop e rest).1,
        (LLM_RETRY_BASE_SECONDS * 2 ^ (a - 1)) :: (analyzeLoop e rest).2.1,
        (analyzeLoop e rest).2.2 + 1) := by
  cases h : e a with
  | success t => rw [h] at hr; exact absurd hr (by simp [retryableOutcome])
  | rateLimit => simp [analyzeLoop, h]
  | statusErr c =>
    have h5 : 500 ≤ c := by rw [h] at hr; exact hr
    simp [analyzeLoop, h, h5]
  | connErr => simp [analyzeLoop, h]

theorem analyzeLoop_parsefail_step (e : Nat → ApiOutcome) (a : Nat) (rest : List Nat)
    (t : String) (hs : e a = ApiOutcome.success t) (hp : _parse_json_response t = none)
    (ha : a ≠ LLM_MAX_RETRIES) :
    analyzeLoop e (a :: rest) =
      ((analyzeLoop e rest).1, (analyzeLoop e rest).2.1,
        (analyzeLoop e rest).2.2 + 1) := by
  simp [analyzeLoop, hs, hp, ha]

theorem analyzeLoop_fatal_step (e : Nat → ApiOutcome) (a : Nat) (rest : List Nat)
    (code : Nat) (h : e a = ApiOutcome.statusErr code) (hlt : code < 500) :
    analyzeLoop e (a :: rest) = (AnalyzeResult.exit 4, [], 1) := by
  have h5 : ¬ (code ≥ 500) := by omega
  simp [analyzeLoop, h, h5]

/-- One attempt that loop execution survives: either a retryable failure
(with a backoff sleep) or a parse failure before the last attempt (no
sleep).  Either way the terminal result is the one of the remaining
attempts, with exactly one more call and at most one more sleep. -/
theorem analyzeLoop_continue_step (e : Nat → ApiOutcome) (a : Nat) (rest : List Nat)
    (ha : a ≠ LLM_MAX_RETRIES)
    (hj : retryableOutcome (e a) ∨
      ∃ t, e a = ApiOutcome.success t ∧ _parse_json_response t = none) :
    (analyzeLoop e (a :: rest)).1 = (analyzeLoop e rest).1 ∧
    (analyzeLoop e (a :: rest)).2.2 = (analyzeLoop e rest).2.2 + 1 ∧
    (analyzeLoop e (a :: rest)).2.1.length ≤ (analyzeLoop e rest).2.1.length + 1 := by
  rcases hj with hr | ⟨t, hs, hp⟩
  · rw [analyzeLoop_retryable_step e a rest hr]
    exact ⟨rfl, rfl, by simp⟩
  · rw [analyzeLoop_parsefail_step e a rest t hs hp ha]
    exact ⟨rfl, rfl, by simp⟩

/-- C5: whenever some attempt k (within the cap) fails with a
client-side API status error that is not a rate limit (4xx, excluding
429 — a 429 raises the distinct `RateLimitError`), and every earlier
attempt ended in a retryable failure or a parse failure (the only
outcomes under which the loop reaches attempt k at all), the invoker
aborts with `SystemExit` (exit code 4) after exactly k API calls: no
further attempt is made even though attempts may remain under the cap,
and the only sleeps are the (at most k-1) backoffs of the earlier
retryable failures. -/
theorem C5_client_error_fatal (e : Nat → ApiOutcome) (k code : Nat)
    (hk1 : 1 ≤ k) (hk : k ≤ LLM_MAX_RETRIES)
    (hbefore : ∀ j, 1 ≤ j → j < k →
      retryableOutcome (e j) ∨
        ∃ t, e j = ApiOutcome.success t ∧ _parse_json_response t = none)
    (h : e k = ApiOutcome.statusErr code)
    (h4 : 400 ≤ code) (h5 : code < 500) (_h429 : code ≠ 429) :
    (analyze e).1 = AnalyzeResult.exit 4 ∧ (analyze e).2.2 = k ∧
      (analyze e).2.1.length ≤ k - 1 := by
  have hk3 : k ≤ 3 := hk
  interval_cases k
  · simp only [analyze, range_one_three]
    rw [analyzeLoop_fatal_step e 1 [2, 3] code h h5]
    exact ⟨rfl, rfl, by decide⟩
  · have c1 := analyzeLoop_continue_step e 1 [2, 3] (by decide)
      (hbefore 1 (by omega) (by omega))
    have f2 := analyzeLoop_fatal_step e 2 [3] code h h5
    rw [f2] at c1
    simp only [analyze, range_one_three]
    obtain ⟨c11, c12, c13⟩ := c1
    exact ⟨c11, by rw [c12], le_trans c13 (by decide)⟩
  · have c1 := analyzeLoop_continue_step e 1 [2, 3] (by decide)
      (hbefore 1 (by omega) (by omega))
    have c2 := analyzeLoop_continue_step e 2 [3] (by decide)
      (hbefore 2 (by omega) (by omega))
    have f3 := analyzeLoop_fatal_step e 3 [] code h h5
    rw [f3] at c2
    simp only [analyze, range_one_three]
    obtain ⟨c11, c12, c13⟩ := c1
    obtain ⟨c21, c22, c23⟩ := c2
    refine ⟨by rw [c11, c21], by rw [c12, c22], ?_⟩
    have h23 : (analyzeLoop e [2, 3]).2.1.length ≤ 1 := le_trans c23 (by decide)
    omega

/-- Witness for C5: an endpoint that is rate-limited on attempt 1 and
returns a 403 on attempt 2 aborts with exit code 4 after exactly two
calls, with at most the one backoff sleep. -/
theorem C5_client_error_fatal_witness :
    (analyze cexEndpoint403).1 = AnalyzeResult.exit 4 ∧
    (analyze cexEndpoint403).2.2 = 2 ∧
    (analyze cexEndpoint403).2.1.length ≤ 1 :=
  C5_client_error_fatal cexEndpoint403 2 403 (by decide) (by decide)
    (fun j h1 h2 => Or.inl (by
      interval_cases j
      exact trivial))
    rfl (by decide) (by decide) (by decide)

/-- C6: whenever attempts 1..k (k < cap) fail with retryable errors
(rate limit, connection error, or 5xx status), the invoker sleeps
exactly `base * 2^(j-1)` seconds after the j-th failure (base = 1s, so
1s, 2s, 4s); if every attempt fails that way it terminates fatally in
`SystemExit` — a path distinct from the parse-failure fallback, which
still returns a result. -/
theorem C6_retryable_backoff :
    (∀ e : Nat → ApiOutcome,
      (∀ k, 1 ≤ k → k ≤ LLM_MAX_RETRIES → retryableOutcome (e k)) →
      analyze e = (AnalyzeResult.exit 4,
        [LLM_RETRY_BASE_SECONDS * 2 ^ 0, LLM_RETRY_BASE_SECONDS * 2 ^ 1,
         LLM_RETRY_BASE_SECONDS * 2 ^ 2], 3) ∧
      ∀ d sleeps n, analyze e ≠ (AnalyzeResult.ok d, sleeps, n)) ∧
    (∀ (e : Nat → ApiOutcome) (k : Nat) (t : String) (d : List (String × JsonV)),
      k + 1 ≤ LLM_MAX_RETRIES →
      (∀ j, 1 ≤ j → j ≤ k → retryableOutcome (e j)) →
      e (k + 1) = ApiOutcome.success t →
      _parse_json_response t = some d →
      analyze e = (AnalyzeResult.ok d,
        (List.range' 1 k).map fun j => LLM_RETRY_BASE_SECONDS * 2 ^ (j - 1), k + 1)) := by
  constructor
  · intro e he
    have s1 := analyzeLoop_retryable_step e 1 [2, 3] (he 1 (by omega) (by decide))
    have s2 := analyzeLoop_retryable_step e 2 [3] (he 2 (by omega) (by decide))
    have s3 := analyzeLoop_retryable_step e 3 [] (he 3 (by omega) (by decide))
    have hout : analyze e = (AnalyzeResult.exit 4,
        [LLM_RETRY_BASE_SECONDS * 2 ^ 0, LLM_RETRY_BASE_SECONDS * 2 ^ 1,
         LLM_RETRY_BASE_SECONDS * 2 ^ 2], 3) := by
      simp only [analyze, range_one_three, s1, s2, s3]
      norm_num [analyzeLoop]
    refine ⟨hout, ?_⟩
    intro d sleeps n hcontra
    rw [hout] at hcontra
    simp at hcontra
  · intro e k t d hk hr hsucc hparse
    have hk2 : k ≤ 2 := by
      have hM : LLM_MAX_RETRIES = 3 := rfl
      omega
    interval_cases k
    · have h1 : e 1 = ApiOutcome.success t := by simpa using hsucc
      have hstop : analyzeLoop e [1, 2, 3] = (AnalyzeResult.ok d, [], 1) := by
        simp [analyzeLoop, h1, hparse]
      simp only [analyze, range_one_three]
      rw [hstop]
      rfl
    · have h2 : e 2 = ApiOutcome.success t := by simpa using hsucc
      have s1 := analyzeLoop_retryable_step e 1 [2, 3] (hr 1 (by omega) (by omega))
      have hstop : analyzeLoop e [2, 3] = (AnalyzeResult.ok d, [], 1) := by
        simp [analyzeLoop, h2, hparse]
      simp only [analyze, range_one_three]
      rw [s1, hstop]
      rfl
    · have h3 : e 3 = ApiOutcome.success t := by simpa using hsucc
      have s1 := analyzeLoop_retryable_step e 1 [2, 3] (hr 1 (by omega) (by omega))
      have s2 := analyzeLoop_retryable_step e 2 [3] (hr 2 (by omega) (by omega))
      have hstop : analyzeLoop e [3] = (AnalyzeResult.ok d, [], 1) := by
        simp [analyzeLoop, h3, hparse]
      simp only [analyze, range_one_three]
      rw [s1, s2, hstop]
      rfl

/-- Witness for C6. -/
theorem C6_retryable_backoff_witness :
    analyze (fun _ => ApiOutcome.rateLimit) =
      (AnalyzeResult.exit 4,
        [LLM_RETRY_BASE_SECONDS * 2 ^ 0, LLM_RETRY_BASE_SECONDS * 2 ^ 1,
         LLM_RETRY_BASE_SECONDS * 2 ^ 2], 3) ∧
    analyze (fun n => if n = 1 then ApiOutcome.connErr else ApiOutcome.success "\x7b\x7d") =
      (AnalyzeResult.ok [],
        (List.range' 1 1).map fun j => LLM_RETRY_BASE_SECONDS * 2 ^ (j - 1), 2) :=
  ⟨(C6_retryable_backoff.1 (fun _ => ApiOutcome.rateLimit)
      (fun _ _ _ => trivial)).1,
   C6_retryable_backoff.2 (fun n => if n = 1 then ApiOutcome.connErr else ApiOutcome.success "\x7b\x7d")
      1 "\x7b\x7d" [] (by decide)
      (fun j hj1 hj2 => by
        have : j = 1 := by omega
        subst this
        simp [retryableOutcome])
      rfl rfl⟩

theorem backtick_not_ws : backtick.isWhitespace = false := rfl

theorem braceOpen_not_ws : braceOpen.isWhitespace = false := rfl

theorem fence_isPrefixOf_cons (c : Char) (rest : List Char) (hc : c ≠ backtick) :
    fenceMarker.isPrefixOf (c :: rest) = false := by
  simp [fenceMarker, List.isPrefixOf]
  intro h
  exact absurd h.symm hc

theorem findFence_cons_marker (rest : List Char) :
    findFence (backtick :: backtick :: backtick :: rest) = some rest := by
  rw [findFence, if_pos]
  · rfl
  · simp [fenceMarker, List.isPrefixOf]

theorem findFence_eq_none (l : List Char) (h : backtick ∉ l) : findFence l = none := by
  induction l with
  | nil => rfl
  | cons c rest ih =>
    have hc : c ≠ backtick := fun hec => h (hec ▸ List.mem_cons_self c rest)
    rw [findFence, fence_isPrefixOf_cons c rest hc]
    simp only [Bool.false_eq_true, if_false]
    exact ih fun hm => h (List.mem_cons_of_mem c hm)

theorem beforeFence_append (l rest : List Char) (h : backtick ∉ l) :
    beforeFence (l ++ backtick :: backtick :: backtick :: rest) = some l := by
  induction l with
  | nil =>
    rw [List.nil_append, beforeFence, if_pos]
    simp [fenceMarker, List.isPrefixOf]
  | cons c t ih =>
    have hc : c ≠ backtick := fun hec => h (hec ▸ List.mem_cons_self c t)
    rw [List.cons_append, beforeFence, fence_isPrefixOf_cons _ _ hc]
    simp only [Bool.false_eq_true, if_false]
    rw [ih fun hm => h (List.mem_cons_of_mem c hm)]
    rfl

theorem fromBrace_append (p l : List Char) (hp : braceOpen ∉ p)
    (hl : l.headD ' ' = braceOpen) (hne : l ≠ []) :
    fromBrace (p ++ l) = some l := by
  induction p with
  | nil =>
    cases l with
    | nil => exact absurd rfl hne
    | cons c t =>
      simp only [List.headD_cons] at hl
      rw [List.nil_append, fromBrace, if_pos hl]
  | cons c t ih =>
    have hc : c ≠ braceOpen := fun hec => hp (hec ▸ List.mem_cons_self c t)
    rw [List.cons_append, fromBrace, if_neg hc]
    exact ih fun hm => hp (List.mem_cons_of_mem c hm)

theorem fromBrace_eq_none (l : List Char) (h : braceOpen ∉ l) : fromBrace l = none := by
  induction l with
  | nil => rfl
  | cons c t ih =>
    have hc : c ≠ braceOpen := fun hec => h (hec ▸ List.mem_cons_self c t)
    rw [fromBrace, if_neg hc]
    exact ih fun hm => h (List.mem_cons_of_mem c hm)

/-- Stripping a string whose first and last characters are not
whitespace changes nothing. -/
theorem pyStrip_of_ends (l : List Char)
    (hh : (l.headD ' ').isWhitespace = false)
    (hl : (l.getLastD ' ').isWhitespace = false) :
    pyStrip (String.mk l) = String.mk l := by
  cases l with
  | nil => rfl
  | cons c t =>
    simp only [List.headD_cons] at hh
    unfold pyStrip
    have h1 : (c :: t).dropWhile Char.isWhitespace = c :: t := by
      rw [List.dropWhile_cons, hh]
      simp
    cases hr : (c :: t).reverse with
    | nil => exact absurd (List.reverse_eq_nil_iff.mp hr) (by simp)
    | cons y ys =>
      have hy : y = (c :: t).getLastD ' ' := by
        have := List.head?_reverse (c :: t)
        rw [hr] at this
        simp only [List.head?_cons] at this
        cases hgl : (c :: t).getLast? with
        | none => rw [hgl] at this; exact absurd this (by simp)
        | some z =>
          rw [hgl] at this
          simp only [Option.some.injEq] at this
          rw [List.getLastD_eq_getLast?, hgl, ← this]
          rfl
      have h2 : (y :: ys).dropWhile Char.isWhitespace = y :: ys := by
        rw [List.dropWhile_cons, hy, hl]
        simp
      rw [show (String.mk (c :: t)).toList = c :: t from rfl, h1, hr, h2, ← hr,
        List.reverse_reverse]

theorem dropWhile_cons_of_head (c : Char) (t : List Char)
    (hc : c.isWhitespace = false) :
    (c :: t).dropWhile Char.isWhitespace = c :: t := by
  rw [List.dropWhile_cons, hc]
  simp

theorem pyStrip_append_ws (l : List Char) (c : Char) (hc : c.isWhitespace = true) :
    pyStrip (String.mk (l ++ [c])) = pyStrip (String.mk l) := by
  unfold pyStrip
  simp only [show (String.mk (l ++ [c])).toList = l ++ [c] from rfl,
    show (String.mk l).toList = l from rfl]
  rw [List.dropWhile_append]
  by_cases h : (l.dropWhile Char.isWhitespace).isEmpty
  · rw [if_pos h]
    rw [List.isEmpty_iff] at h
    rw [h]
    simp [List.dropWhile_cons, hc]
  · rw [if_neg h]
    rw [List.reverse_append]
    simp only [List.reverse_cons, List.reverse_nil, List.nil_append,
      List.singleton_append]
    rw [List.dropWhile_cons, hc]
    simp

theorem pyStrip_append_stripped (p l : List Char)
    (hh : (l.headD ' ').isWhitespace = false)
    (hl : (l.getLastD ' ').isWhitespace = false) (hne : l ≠ []) :
    pyStrip (String.mk (p ++ l)) = String.mk (p.dropWhile Char.isWhitespace ++ l) := by
  cases hc : l with
  | nil => exact absurd hc hne
  | cons c t =>
    subst hc
    simp only [List.headD_cons] at hh
    have hrev : ∀ m : List Char,
        ((c :: t).reverse ++ m).dropWhile Char.isWhitespace = (c :: t).reverse ++ m := by
      intro m
      cases hr : (c :: t).reverse with
      | nil => exact absurd (List.reverse_eq_nil_iff.mp hr) (by simp)
      | cons y ys =>
        have hy : y = (c :: t).getLastD ' ' := by
          have hhr := List.head?_reverse (c :: t)
          rw [hr] at hhr
          simp only [List.head?_cons] at hhr
          rw [List.getLastD_eq_getLast?, ← hhr]
          rfl
        rw [List.cons_append]
        rw [dropWhile_cons_of_head]
        rw [hy, hl]
    unfold pyStrip
    simp only [show (String.mk (p ++ c :: t)).toList = p ++ c :: t from rfl]
    rw [List.dropWhile_append]
    by_cases hp : (p.dropWhile Char.isWhitespace).isEmpty
    · rw [if_pos hp]
      rw [List.isEmpty_iff] at hp
      rw [hp, List.nil_append]
      rw [dropWhile_cons_of_head c t hh]
      have := hrev []
      rw [List.append_nil] at this
      rw [this, List.reverse_reverse]
    · rw [if_neg hp]
      rw [List.reverse_append, hrev, List.reverse_append, List.reverse_reverse,
        List.reverse_reverse]

theorem pyStrip_self (s : String)
    (hh : (s.toList.headD ' ').isWhitespace = false)
    (hl : (s.toList.getLastD ' ').isWhitespace = false) :
    pyStrip s = s := by
  have := pyStrip_of_ends s.toList hh hl
  rw [show String.mk s.toList = s from rfl] at this
  exact this

theorem toList_nonempty_of_headD (s : String) (h : s.toList.headD ' ' = braceOpen) :
    s.toList ≠ [] := by
  intro h0
  rw [h0] at h
  simp only [List.headD_nil] at h
  exact absurd h (by decide)

theorem parse_response_fence_core (s : String) (kvs : List (String × JsonV))
    (hhead : s.toList.headD ' ' = braceOpen)
    (hlast : (s.toList.getLastD ' ').isWhitespace = false)
    (hparse : json_loads s = some (JsonV.obj kvs))
    (text : String)
    (hstrip : pyStrip text = text)
    (hfc : fenceContent text.toList = some (s.toList ++ ['\n'])) :
    _parse_json_response text = some kvs := by
  have h2 : pyStrip (String.mk (s.toList ++ ['\n'])) = s := by
    rw [pyStrip_append_ws _ _ (by decide)]
    exact pyStrip_self s (by rw [hhead]; exact braceOpen_not_ws) hlast
  unfold _parse_json_response
  simp only [hstrip, hfc, h2, hhead, if_true, hparse]

theorem parse_response_fenced_json (s : String) (kvs : List (String × JsonV))
    (hb : backtick ∉ s.toList)
    (hhead : s.toList.headD ' ' = braceOpen)
    (hlast : (s.toList.getLastD ' ').isWhitespace = false)
    (hparse : json_loads s = some (JsonV.obj kvs)) :
    _parse_json_response ("```json\n" ++ s ++ "\n```") = some kvs := by
  have hne := toList_nonempty_of_headD s hhead
  have htl : ("```json\n" ++ s ++ "\n```").toList =
      backtick :: backtick :: backtick :: 'j' :: 's' :: 'o' :: 'n' :: '\n' ::
        (s.toList ++ '\n' :: backtick :: backtick :: backtick :: []) := rfl
  apply parse_response_fence_core s kvs hhead hlast hparse
  · apply pyStrip_self
    · rw [htl]; rfl
    · rw [htl]
      simp only [List.getLastD_eq_getLast?]
      rw [show backtick :: backtick :: backtick :: 'j' :: 's' :: 'o' :: 'n' :: '\n' ::
          (s.toList ++ '\n' :: backtick :: backtick :: backtick :: []) =
          (backtick :: backtick :: backtick :: 'j' :: 's' :: 'o' :: 'n' :: '\n' ::
            s.toList ++ ['\n', backtick, backtick]) ++ [backtick] by simp]
      rw [List.getLast?_concat]
      rfl
  · rw [htl]
    rw [fenceContent, findFence_cons_marker]
    have hjson : (['j', 's', 'o', 'n'] : List Char).isPrefixOf
        ('j' :: 's' :: 'o' :: 'n' :: '\n' ::
          (s.toList ++ '\n' :: backtick :: backtick :: backtick :: [])) = true := by
      simp [List.isPrefixOf]
    simp only [hjson, if_true]
    simp only [List.drop_succ_cons, List.drop_zero]
    rw [List.dropWhile_cons]
    rw [show isRegexSpace '\n' = true from rfl]
    simp only [if_true]
    obtain ⟨t, ht⟩ : ∃ t, s.toList = braceOpen :: t := by
      cases hc : s.toList with
      | nil => exact absurd hc hne
      | cons c t =>
        rw [hc] at hhead
        simp only [List.headD_cons] at hhead
        exact ⟨t, by rw [hhead]⟩
    rw [ht, List.cons_append, List.dropWhile_cons]
    rw [show isRegexSpace braceOpen = false from rfl]
    simp only [Bool.false_eq_true, if_false]
    have hmem : backtick ∉ (braceOpen :: t) ++ ['\n'] := by
      rw [← ht]
      intro hm
      rcases List.mem_append.mp hm with h1 | h1
      · exact hb h1
      · simp only [List.mem_singleton] at h1
        exact absurd h1 (by decide)
    rw [show braceOpen :: (t ++ '\n' :: backtick :: backtick :: backtick :: []) =
        ((braceOpen :: t) ++ ['\n']) ++ backtick :: backtick :: backtick :: [] by simp]
    rw [beforeFence_append _ _ hmem, ← ht]

theorem parse_response_fenced_plain (s : String) (kvs : List (String × JsonV))
    (hb : backtick ∉ s.toList)
    (hhead : s.toList.headD ' ' = braceOpen)
    (hlast : (s.toList.getLastD ' ').isWhitespace = false)
    (hparse : json_loads s = some (JsonV.obj kvs)) :
    _parse_json_response ("```\n" ++ s ++ "\n```") = some kvs := by
  have hne := toList_nonempty_of_headD s hhead
  have htl : ("```\n" ++ s ++ "\n```").toList =
      backtick :: backtick :: backtick :: '\n' ::
        (s.toList ++ '\n' :: backtick :: backtick :: backtick :: []) := rfl
  apply parse_response_fence_core s kvs hhead hlast hparse
  · apply pyStrip_self
    · rw [htl]; rfl
    · rw [htl]
      simp only [List.getLastD_eq_getLast?]
      rw [show backtick :: backtick :: backtick :: '\n' ::
          (s.toList ++ '\n' :: backtick :: backtick :: backtick :: []) =
          (backtick :: backtick :: backtick :: '\n' ::
            s.toList ++ ['\n', backtick, backtick]) ++ [backtick] by simp]
      rw [List.getLast?_concat]
      rfl
  · rw [htl]
    rw [fenceContent, findFence_cons_marker]
    have hjson : (['j', 's', 'o', 'n'] : List Char).isPrefixOf
        ('\n' :: (s.toList ++ '\n' :: backtick :: backtick :: backtick :: [])) = false := rfl
    simp only [hjson, Bool.false_eq_true, if_false]
    rw [List.dropWhile_cons]
    rw [show isRegexSpace '\n' = true from rfl]
    simp only [if_true]
    obtain ⟨t, ht⟩ : ∃ t, s.toList = braceOpen :: t := by
      cases hc : s.toList with
      | nil => exact absurd hc hne
      | cons c t =>
        rw [hc] at hhead
        simp only [List.headD_cons] at hhead
        exact ⟨t, by rw [hhead]⟩
    rw [ht, List.cons_append, List.dropWhile_cons]
    rw [show isRegexSpace braceOpen = false from rfl]
    simp only [Bool.false_eq_true, if_false]
    have hmem : backtick ∉ (braceOpen :: t) ++ ['\n'] := by
      rw [← ht]
      intro hm
      rcases List.mem_append.mp hm with h1 | h1
      · exact hb h1
      · simp only [List.mem_singleton] at h1
        exact absurd h1 (by decide)
    rw [show braceOpen :: (t ++ '\n' :: backtick :: backtick :: backtick :: []) =
        ((braceOpen :: t) ++ ['\n']) ++ backtick :: backtick :: backtick :: [] by simp]
    rw [beforeFence_append _ _ hmem, ← ht]

theorem parse_core_obj (text t1 : String) (kvs : List (String × JsonV))
    (hstrip : pyStrip text = t1)
    (hnf : fenceContent t1.toList = none)
    (hhead : t1.toList.headD ' ' = braceOpen)
    (hparse : json_loads t1 = some (JsonV.obj kvs)) :
    _parse_json_response text = some kvs := by
  unfold _parse_json_response
  simp only [hstrip, hnf, hhead, if_true, hparse]

theorem parse_core_frombrace (text t1 s2 : String) (kvs : List (String × JsonV))
    (hstrip : pyStrip text = t1)
    (hnf : fenceContent t1.toList = none)
    (hheadne : ¬ (t1.toList.headD ' ' = braceOpen))
    (hfb : fromBrace t1.toList = some s2.toList)
    (hparse : json_loads s2 = some (JsonV.obj kvs)) :
    _parse_json_response text = some kvs := by
  unfold _parse_json_response
  simp only [hstrip, hnf, hfb, if_neg hheadne,
    show String.mk s2.toList = s2 from rfl, hparse]

theorem parse_core_none (text t1 : String) (items : List JsonV)
    (hstrip : pyStrip text = t1)
    (hnf : fenceContent t1.toList = none)
    (hheadne : ¬ (t1.toList.headD ' ' = braceOpen))
    (hfb : fromBrace t1.toList = none)
    (hparse : json_loads t1 = some (JsonV.arr items)) :
    _parse_json_response text = none := by
  unfold _parse_json_response
  simp only [hstrip, hnf, hfb, if_neg hheadne, hparse]

theorem fenceContent_eq_none (l : List Char) (h : backtick ∉ l) :
    fenceContent l = none := by
  rw [fenceContent, findFence_eq_none l h]

theorem parse_response_preamble (pre s : String) (kvs : List (String × JsonV))
    (hpreb : backtick ∉ pre.toList) (hpreB : braceOpen ∉ pre.toList)
    (hsb : backtick ∉ s.toList)
    (hhead : s.toList.headD ' ' = braceOpen)
    (hlast : (s.toList.getLastD ' ').isWhitespace = false)
    (hparse : json_loads s = some (JsonV.obj kvs)) :
    _parse_json_response (pre ++ s) = some kvs := by
  have hne := toList_nonempty_of_headD s hhead
  have hhw : (s.toList.headD ' ').isWhitespace = false := by
    rw [hhead]; exact braceOpen_not_ws
  have hstrip : pyStrip (pre ++ s) =
      String.mk (pre.toList.dropWhile Char.isWhitespace ++ s.toList) := by
    have := pyStrip_append_stripped pre.toList s.toList hhw hlast hne
    rw [show String.mk (pre.toList ++ s.toList) = pre ++ s from rfl] at this
    exact this
  have hsubl : ∀ c, c ∈ pre.toList.dropWhile Char.isWhitespace → c ∈ pre.toList :=
    fun c hc => (List.dropWhile_sublist _).mem hc
  have htl1 : (String.mk (pre.toList.dropWhile Char.isWhitespace ++ s.toList)).toList =
      pre.toList.dropWhile Char.isWhitespace ++ s.toList := rfl
  have hnf : fenceContent
      (String.mk (pre.toList.dropWhile Char.isWhitespace ++ s.toList)).toList = none := by
    rw [htl1]
    apply fenceContent_eq_none
    intro hm
    rcases List.mem_append.mp hm with h1 | h1
    · exact hpreb (hsubl _ h1)
    · exact hsb h1
  cases hp : pre.toList.dropWhile Char.isWhitespace with
  | nil =>
    apply parse_core_obj (pre ++ s) (String.mk (pre.toList.dropWhile Char.isWhitespace ++ s.toList)) kvs hstrip hnf
    · rw [htl1, hp, List.nil_append]
      exact hhead
    · rw [show String.mk (pre.toList.dropWhile Char.isWhitespace ++ s.toList) =
          String.mk (pre.toList.dropWhile Char.isWhitespace ++ s.toList) from rfl, hp]
      rw [show String.mk ([] ++ s.toList) = s from rfl]
      exact hparse
  | cons c ct =>
    have hcb : c ≠ braceOpen :=
      fun hec => hpreB (hec ▸ hsubl c (hp ▸ List.mem_cons_self c ct))
    apply parse_core_frombrace (pre ++ s)
      (String.mk (pre.toList.dropWhile Char.isWhitespace ++ s.toList)) s kvs hstrip hnf
    · rw [htl1, hp, List.cons_append, List.headD_cons]
      exact hcb
    · rw [htl1, hp, List.cons_append,
        show (c :: (ct ++ s.toList)) = (c :: ct) ++ s.toList from rfl]
      exact fromBrace_append (c :: ct) s.toList
        (fun hm => hpreB (hsubl _ (hp ▸ hm))) hhead hne
    · exact hparse

theorem parse_response_nonmapping (s : String) (items : List JsonV)
    (hsb : backtick ∉ s.toList) (hsB : braceOpen ∉ s.toList)
    (hh : (s.toList.headD ' ').isWhitespace = false)
    (hl : (s.toList.getLastD ' ').isWhitespace = false)
    (hparse : json_loads s = some (JsonV.arr items)) :
    _parse_json_response s = none := by
  have hheadne : ¬ (s.toList.headD ' ' = braceOpen) := by
    cases hc : s.toList with
    | nil => simp only [List.headD_nil]; decide
    | cons c ct =>
      simp only [List.headD_cons]
      intro hec
      exact hsB (hc ▸ (hec ▸ List.mem_cons_self c ct))
  exact parse_core_none s s items (pyStrip_self s hh hl)
    (fenceContent_eq_none _ hsb) hheadne (fromBrace_eq_none _ hsB) hparse

/-- C7: the response coercer is total — for every input text it returns
a top-level mapping or the no-result indicator, never raising; a text
wrapped in a fenced block (with or without a `json` language tag) yields
the mapping parsed from the first fence's inner content; conversational
preamble before the first opening brace is discarded and the mapping
parsed from the brace onward; a successful structural parse whose
top-level value is not a mapping (e.g. a list) yields the no-result
indicator. -/
theorem C7_response_coercer :
    (∀ text, _parse_json_response text = none ∨
      ∃ kvs, _parse_json_response text = some kvs) ∧
    (∀ s kvs, backtick ∉ s.toList → s.toList.headD ' ' = braceOpen →
      (s.toList.getLastD ' ').isWhitespace = false →
      json_loads s = some (JsonV.obj kvs) →
      _parse_json_response ("```json\n" ++ s ++ "\n```") = some kvs ∧
      _parse_json_response ("```\n" ++ s ++ "\n```") = some kvs) ∧
    (∀ pre s kvs, backtick ∉ pre.toList → braceOpen ∉ pre.toList →
      backtick ∉ s.toList → s.toList.headD ' ' = braceOpen →
      (s.toList.getLastD ' ').isWhitespace = false →
      json_loads s = some (JsonV.obj kvs) →
      _parse_json_response (pre ++ s) = some kvs) ∧
    (∀ s items, backtick ∉ s.toList → braceOpen ∉ s.toList →
      (s.toList.headD ' ').isWhitespace = false →
      (s.toList.getLastD ' ').isWhitespace = false →
      json_loads s = some (JsonV.arr items) →
      _parse_json_response s = none) := by
  refine ⟨fun text => ?_,
    fun s kvs hb hh hl hp =>
      ⟨parse_response_fenced_json s kvs hb hh hl hp,
       parse_response_fenced_plain s kvs hb hh hl hp⟩,
    fun pre s kvs h1 h2 h3 h4 h5 h6 =>
      parse_response_preamble pre s kvs h1 h2 h3 h4 h5 h6,
    fun s items h1 h2 h3 h4 h5 =>
      parse_response_nonmapping s items h1 h2 h3 h4 h5⟩
  cases h : _parse_json_response text with
  | none => exact Or.inl rfl
  | some kvs => exact Or.inr ⟨kvs, rfl⟩

/-- Witness for C7 at concrete inputs. -/
theorem C7_response_coercer_witness :
    _parse_json_response ("```json\n" ++ "\x7b\"a\": 1\x7d" ++ "\n```") =
      some [("a", JsonV.num 1)] ∧
    _parse_json_response ("```\n" ++ "\x7b\"a\": 1\x7d" ++ "\n```") =
      some [("a", JsonV.num 1)] ∧
    _parse_json_response ("Sure, here it is: " ++ "\x7b\"a\": 1\x7d") =
      some [("a", JsonV.num 1)] ∧
    _parse_json_response "[1, 2]" = none :=
  ⟨(C7_response_coercer.2.1 "\x7b\"a\": 1\x7d" [("a", JsonV.num 1)]
      (by decide) (by decide) (by decide) rfl).1,
   (C7_response_coercer.2.1 "\x7b\"a\": 1\x7d" [("a", JsonV.num 1)]
      (by decide) (by decide) (by decide) rfl).2,
   C7_response_coercer.2.2.1 "Sure, here it is: " "\x7b\"a\": 1\x7d"
      [("a", JsonV.num 1)] (by decide) (by decide) (by decide) (by decide)
      (by decide) rfl,
   C7_response_coercer.2.2.2 "[1, 2]" [JsonV.num 1, JsonV.num 2]
      (by decide) (by decide) (by decide) (by decide) rfl⟩

unseal Rat.add Rat.mul Rat.sub Rat.inv in
/-- C8 counterexample: on a series of ten closes of −100 the mean of
the recent 5 closes (−100) is more than 2% below the prior mean
(−100 × 0.98 = −98 > −100), so the claim requires the Downward
classification, but the code's first test (−100 > −100 × 1.02 = −102)
also fires and the `elif` yields Upward. -/
theorem C8_counterexample :
    10 ≤ (List.replicate 10 (-100 : ℚ)).length ∧
    ((List.replicate 10 (-100 : ℚ)).drop ((List.replicate 10 (-100 : ℚ)).length - 5)).sum / 5 <
      (((List.replicate 10 (-100 : ℚ)).drop
          ((List.replicate 10 (-100 : ℚ)).length - 10)).take 5).sum / 5 * (98/100) ∧
    trendNote (List.replicate 10 (-100 : ℚ)) =
      "Recent trend: Upward (last 5 days avg above prior 5 days)." ∧
    "Recent trend: Upward (last 5 days avg above prior 5 days)." ≠
      "Recent trend: Downward (last 5 days avg below prior 5 days)." := by
  refine ⟨by decide, by decide, ?_, by decide⟩
  rw [trendNote, if_pos (by decide), if_pos (by decide)]

/-- C8 (amended): the price section includes a trend classification iff
at least 10 closes are present; the classification is Upward when the
mean of the most recent 5 closes exceeds the prior 5-close mean by more
than 2%, Downward when it is more than 2% below it *and the Upward test
did not fire* (the upward test takes precedence; the two overlap only
when the prior mean is negative), and Sideways otherwise (including the
exact 2% boundaries). -/
theorem C8_trend_classification (closes : List ℚ) :
    (trendNote closes ≠ "" ↔ 10 ≤ closes.length) ∧
    (10 ≤ closes.length →
      ((closes.drop (closes.length - 5)).sum / 5 >
          ((closes.drop (closes.length - 10)).take 5).sum / 5 * (102/100) →
        trendNote closes =
          "Recent trend: Upward (last 5 days avg above prior 5 days).") ∧
      (¬ ((closes.drop (closes.length - 5)).sum / 5 >
          ((closes.drop (closes.length - 10)).take 5).sum / 5 * (102/100)) →
        (closes.drop (closes.length - 5)).sum / 5 <
          ((closes.drop (closes.length - 10)).take 5).sum / 5 * (98/100) →
        trendNote closes =
          "Recent trend: Downward (last 5 days avg below prior 5 days).") ∧
      (¬ ((closes.drop (closes.length - 5)).sum / 5 >
          ((closes.drop (closes.length - 10)).take 5).sum / 5 * (102/100)) →
        ¬ ((closes.drop (closes.length - 5)).sum / 5 <
          ((closes.drop (closes.length - 10)).take 5).sum / 5 * (98/100)) →
        trendNote closes =
          "Recent trend: Sideways (last 5 days avg near prior 5 days).")) ∧
    (∀ (price : PriceData) (currency : String), price.ohlcv_30days.getD [] ≠ [] →
      trendNote (closesOf (price.ohlcv_30days.getD [])) ∈
        _build_price_data_lines price currency ∧
      _build_price_data price currency =
        String.intercalate "\n" (_build_price_data_lines price currency)) := by
  refine ⟨?_, ?_, ?_⟩
  · constructor
    · intro hne
      by_contra hlt
      rw [trendNote, if_neg hlt] at hne
      exact hne rfl
    · intro h10
      rw [trendNote, if_pos h10]
      by_cases h1 : (closes.drop (closes.length - 5)).sum / 5 >
          ((closes.drop (closes.length - 10)).take 5).sum / 5 * (102/100)
      · rw [if_pos h1]; decide
      · rw [if_neg h1]
        by_cases h2 : (closes.drop (closes.length - 5)).sum / 5 <
            ((closes.drop (closes.length - 10)).take 5).sum / 5 * (98/100)
        · rw [if_pos h2]; decide
        · rw [if_neg h2]; decide
  · intro h10
    refine ⟨?_, ?_, ?_⟩
    · intro h1
      rw [trendNote, if_pos h10, if_pos h1]
    · intro h1 h2
      rw [trendNote, if_pos h10, if_neg h1, if_pos h2]
    · intro h1 h2
      rw [trendNote, if_pos h10, if_neg h1, if_neg h2]
  · intro price currency hbars
    constructor
    · unfold _build_price_data_lines closesOf
      simp
    · rw [_build_price_data]
      rw [if_neg (by simpa [List.isEmpty_iff] using hbars)]

unseal Rat.add Rat.mul Rat.sub Rat.inv in
/-- Witness for the amended C8. -/
theorem C8_trend_classification_witness :
    trendNote [1, 1, 1, 1, 1, 2, 2, 2, 2, 2] =
      "Recent trend: Upward (last 5 days avg above prior 5 days)." ∧
    trendNote [2, 2, 2, 2, 2, 1, 1, 1, 1, 1] =
      "Recent trend: Downward (last 5 days avg below prior 5 days)." ∧
    trendNote [1, 1, 1, 1, 1, 1, 1, 1, 1, 1] =
      "Recent trend: Sideways (last 5 days avg near prior 5 days)." ∧
    trendNote (closesOf
        (({ ohlcv_30days := some [{ close := some 1 }] } : PriceData).ohlcv_30days.getD [])) ∈
      _build_price_data_lines
        ({ ohlcv_30days := some [{ close := some 1 }] } : PriceData) "USD" :=
  ⟨((C8_trend_classification [1, 1, 1, 1, 1, 2, 2, 2, 2, 2]).2.1 (by decide)).1 (by decide),
   ((C8_trend_classification [2, 2, 2, 2, 2, 1, 1, 1, 1, 1]).2.1 (by decide)).2.1
      (by decide) (by decide),
   ((C8_trend_classification [1, 1, 1, 1, 1, 1, 1, 1, 1, 1]).2.1 (by decide)).2.2
      (by decide) (by decide),
   ((C8_trend_classification
      (closesOf (({ ohlcv_30days := some [{ close := some 1 }] } : PriceData).ohlcv_30days.getD []))).2.2
      ({ ohlcv_30days := some [{ close := some 1 }] } : PriceData) "USD" (by decide)).1⟩

theorem digitChar_isDigit (m : Nat) (h : m < 10) : (Nat.digitChar m).isDigit = true := by
  interval_cases m <;> decide

theorem toDigitsCore_spec (f n : Nat) (l : List Char) :
    ∃ pre, Nat.toDigitsCore 10 (f + 1) n l = pre ++ l ∧ pre ≠ [] ∧
      ∀ c ∈ pre, c.isDigit = true := by
  induction f generalizing n l with
  | zero =>
    refine ⟨[Nat.digitChar (n % 10)], ?_, by simp, ?_⟩
    · rw [Nat.toDigitsCore]
      by_cases h0 : n / 10 = 0
      · rw [if_pos h0]; rfl
      · rw [if_neg h0]; rfl
    · intro c hc
      simp only [List.mem_singleton] at hc
      subst hc
      exact digitChar_isDigit _ (Nat.mod_lt _ (by omega))
  | succ f ih =>
    rw [Nat.toDigitsCore]
    by_cases h0 : n / 10 = 0
    · rw [if_pos h0]
      refine ⟨[Nat.digitChar (n % 10)], rfl, by simp, ?_⟩
      intro c hc
      simp only [List.mem_singleton] at hc
      subst hc
      exact digitChar_isDigit _ (Nat.mod_lt _ (by omega))
    · rw [if_neg h0]
      obtain ⟨pre, hpre, hne, hdig⟩ := ih (n / 10) (Nat.digitChar (n % 10) :: l)
      refine ⟨pre ++ [Nat.digitChar (n % 10)], by rw [hpre]; simp, by simp, ?_⟩
      intro c hc
      rcases List.mem_append.mp hc with h1 | h1
      · exact hdig c h1
      · simp only [List.mem_singleton] at h1
        subst h1
        exact digitChar_isDigit _ (Nat.mod_lt _ (by omega))

theorem natRepr_digits (n : Nat) :
    (toString n).toList ≠ [] ∧ ∀ c ∈ (toString n).toList, c.isDigit = true := by
  obtain ⟨pre, hpre, hne, hdig⟩ := toDigitsCore_spec n n []
  have h2 : Nat.toDigits 10 n = pre := by rw [Nat.toDigits, hpre, List.append_nil]
  rw [show (toString n).toList = Nat.toDigits 10 n from rfl, h2]
  exact ⟨hne, hdig⟩

theorem headD_digit_of_repr_leading (m : Nat) (l2 : List Char) :
    (((toString m).toList ++ l2).headD ' ').isDigit = true := by
  obtain ⟨hne, hdig⟩ := natRepr_digits m
  cases hc : (toString m).toList with
  | nil => exact absurd hc hne
  | cons c t =>
    simp only [List.cons_append, List.headD_cons]
    exact hdig c (by rw [hc]; exact List.mem_cons_self c t)

theorem toList_append3 (a b c : String) :
    ((a ++ b) ++ c).toList = a.toList ++ (b.toList ++ c.toList) := by
  rw [show ((a ++ b) ++ c).toList = (a.toList ++ b.toList) ++ c.toList from rfl,
    List.append_assoc]

theorem isDigit_ne_plus (c : Char) (h : c.isDigit = true) : c ≠ '+' := by
  intro he
  subst he
  exact absurd h (by decide)

theorem fmt_pct_head_digit (q : ℚ) (h : ¬ (q * 100 < 0)) :
    ((_fmt_pct (some q)).toList.headD ' ').isDigit = true := by
  have e1 : (_fmt_pct (some q)).toList
      = (toString ((pyRoundHalfEven (|q * 100| * ((10 ^ 2 : Nat) : ℚ))).toNat / 10 ^ 2)).toList
        ++ (("." ++ zfill 2 (toString
            ((pyRoundHalfEven (|q * 100| * ((10 ^ 2 : Nat) : ℚ))).toNat % 10 ^ 2))).toList
          ++ "%".toList) := by
    show ((fmtFixed (q * 100) 2 ++ "%").toList) = _
    unfold fmtFixed
    rw [if_neg h, toList_append3]
    rfl
  rw [e1]
  exact headD_digit_of_repr_leading _ _

theorem intercalate_go_concat (sep x : String) (l : List String) (acc : String) :
    String.intercalate.go acc sep (l ++ [x]) =
      String.intercalate.go acc sep l ++ sep ++ x := by
  induction l generalizing acc with
  | nil => rfl
  | cons a as ih => exact ih (acc ++ sep ++ a)

theorem intercalate_concat (sep x a : String) (l : List String) :
    String.intercalate sep ((a :: l) ++ [x]) =
      String.intercalate sep (a :: l) ++ sep ++ x :=
  intercalate_go_concat sep x l a

theorem intercalate4_factor (A B hdr D mid x : String) :
    String.intercalate "\n" [A, B, hdr ++ (mid ++ ", " ++ x), D] =
      (A ++ "\n" ++ B ++ "\n" ++ (hdr ++ (mid ++ ", "))) ++ x ++ ("\n" ++ D) := by
  show ((A ++ "\n" ++ B) ++ "\n" ++ (hdr ++ (mid ++ ", " ++ x))) ++ "\n" ++ D = _
  simp only [String.append_assoc]

theorem fmtFixed_two_decimals (q : ℚ) :
    ∃ ip fr, fmtFixed q 2 = ip ++ "." ++ fr ∧ fr.length = 2 ∧
      fr.toList.all Char.isDigit = true := by
  refine ⟨(if q < 0 then "-" else "") ++
      toString ((pyRoundHalfEven (|q| * ((10 ^ 2 : Nat) : ℚ))).toNat / 10 ^ 2),
    zfill 2 (toString ((pyRoundHalfEven (|q| * ((10 ^ 2 : Nat) : ℚ))).toNat % 10 ^ 2)),
    ?_, ?_, ?_⟩
  · unfold fmtFixed
    simp only [String.append_assoc]
    rfl
  · have hfp : (pyRoundHalfEven (|q| * ((10 ^ 2 : Nat) : ℚ))).toNat % 10 ^ 2 < 10 ^ 2 :=
      Nat.mod_lt _ (by norm_num)
    have hlen : (toString ((pyRoundHalfEven (|q| * ((10 ^ 2 : Nat) : ℚ))).toNat % 10 ^ 2)).length ≤ 2 :=
      Nat.repr_length _ 2 (by norm_num) hfp
    unfold zfill
    by_cases hl : (toString ((pyRoundHalfEven (|q| * ((10 ^ 2 : Nat) : ℚ))).toNat % 10 ^ 2)).length < 2
    · rw [if_pos hl, String.length_append]
      rw [show (String.mk (List.replicate
          (2 - (toString ((pyRoundHalfEven (|q| * ((10 ^ 2 : Nat) : ℚ))).toNat % 10 ^ 2)).length) '0')).length
          = 2 - (toString ((pyRoundHalfEven (|q| * ((10 ^ 2 : Nat) : ℚ))).toNat % 10 ^ 2)).length by
        rw [show (String.mk (List.replicate
            (2 - (toString ((pyRoundHalfEven (|q| * ((10 ^ 2 : Nat) : ℚ))).toNat % 10 ^ 2)).length) '0')).length
            = (List.replicate
              (2 - (toString ((pyRoundHalfEven (|q| * ((10 ^ 2 : Nat) : ℚ))).toNat % 10 ^ 2)).length) '0').length
            from rfl, List.length_replicate]]
      omega
    · rw [if_neg hl]
      omega
  · have hdig := (natRepr_digits ((pyRoundHalfEven (|q| * ((10 ^ 2 : Nat) : ℚ))).toNat % 10 ^ 2)).2
    unfold zfill
    by_cases hl : (toString ((pyRoundHalfEven (|q| * ((10 ^ 2 : Nat) : ℚ))).toNat % 10 ^ 2)).length < 2
    · rw [if_pos hl]
      rw [show (String.mk (List.replicate
          (2 - (toString ((pyRoundHalfEven (|q| * ((10 ^ 2 : Nat) : ℚ))).toNat % 10 ^ 2)).length) '0') ++
          toString ((pyRoundHalfEven (|q| * ((10 ^ 2 : Nat) : ℚ))).toNat % 10 ^ 2)).toList =
          List.replicate
            (2 - (toString ((pyRoundHalfEven (|q| * ((10 ^ 2 : Nat) : ℚ))).toNat % 10 ^ 2)).length) '0' ++
          (toString ((pyRoundHalfEven (|q| * ((10 ^ 2 : Nat) : ℚ))).toNat % 10 ^ 2)).toList from rfl]
      rw [List.all_eq_true]
      intro c hc
      rcases List.mem_append.mp hc with h1 | h1
      · rw [List.eq_of_mem_replicate h1]; decide
      · exact hdig c h1
    · rw [if_neg hl, List.all_eq_true]
      exact hdig

unseal Rat.add Rat.mul Rat.sub Rat.inv in
/-- C9 counterexample: the dividend yield is rendered via `_fmt_pct`,
which never emits a sign.  A nonnegative dividend yield of 0.0044
renders as `0.44%`, with no `+`, and that very rendering appears in the
ticker-info section line. -/
theorem C9_counterexample :
    (0 : ℚ) ≤ mkRat 44 10000 ∧
    _fmt_pct (some (mkRat 44 10000)) = "0.44%" ∧
    ("Dividend Yield: " ++ _fmt_pct (some (mkRat 44 10000))) ∈
      _build_ticker_info_lines
        ({ dividend_yield := some (mkRat 44 10000) } : PriceData) "USD" ∧
    ¬ ("0.44%".toList.headD ' ' = '+') := by
  refine ⟨by decide, by decide, ?_, by decide⟩
  unfold _build_ticker_info_lines
  simp

/-- C9 (amended): the day change percent (via `_fmt_change`), the period
change (the `Period change:` line of the price section) and the EPS
surprise carry an explicit `+` sign when nonnegative and are rendered
with exactly two decimal places; the dividend yield (via `_fmt_pct`) is
rendered with two decimal places but never carries a sign (its first
character is a digit, never `+`). -/
theorem C9_percent_signs (q : ℚ) (h : 0 ≤ q) :
    _fmt_change none (some q) = "+" ++ fmtFixed q 2 ++ "%" ∧
    (∀ d : ℚ, _fmt_change (some d) (some q) =
      ((if 0 ≤ d then "+" else "") ++ fmtFixedComma d 2) ++ " / " ++
        ("+" ++ fmtFixed q 2 ++ "%")) ∧
    _fmt_pct (some q) = fmtFixed (q * 100) 2 ++ "%" ∧
    ((_fmt_pct (some q)).toList.headD ' ') ≠ '+' ∧
    (∃ ip fr, fmtFixed q 2 = ip ++ "." ++ fr ∧ fr.length = 2 ∧
      fr.toList.all Char.isDigit = true) ∧
    (∀ (price : PriceData) (currency : String) (o c : ℚ),
      ((price.ohlcv_30days.getD []).headD {}).openP = some o →
      ((price.ohlcv_30days.getD []).getLastD {}).close = some c →
      o ≠ 0 → c ≠ 0 → (c - o) / o * 100 = q →
      ("Period change: +" ++ fmtFixed q 2 ++ "% (" ++
        _fmt_price (some o) currency ++ " → " ++
        _fmt_price (some c) currency ++ ").") ∈
        _build_price_data_lines price currency) ∧
    (∀ (e : EarningsData) (lq : LastQuarter), e.last_quarter = some lq →
      lq.eps_surprise_pct = some q →
      ∃ pre post, _build_earnings e =
        pre ++ ("EPS surprise: +" ++ fmtFixed q 2 ++ "%") ++ post) := by
  refine ⟨?_, ?_, rfl, ?_, fmtFixed_two_decimals q, ?_, ?_⟩
  · show String.intercalate " / "
      ([] ++ [(if 0 ≤ q then "+" else "") ++ fmtFixed q 2 ++ "%"]) = _
    rw [if_pos h]
    rfl
  · intro d
    show String.intercalate " / "
      ([(if 0 ≤ d then "+" else "") ++ fmtFixedComma d 2] ++
        [(if 0 ≤ q then "+" else "") ++ fmtFixed q 2 ++ "%"]) = _
    rw [if_pos h]
    rfl
  · exact isDigit_ne_plus _ (fmt_pct_head_digit q
      (not_lt.mpr (mul_nonneg h (by norm_num))))
  · intro price currency o c ho hc ho0 hc0 hq
    unfold _build_price_data_lines
    simp only [ho, hc]
    rw [if_pos (show o ≠ 0 ∧ c ≠ 0 from ⟨ho0, hc0⟩), hq, if_pos h]
    rw [show ("Period change: +" : String) = "Period change: " ++ "+" from rfl]
    simp
  · intro e lq hlq hsp
    unfold _build_earnings
    rw [hlq]
    simp only [Option.getD_some, hsp, if_pos h, List.singleton_append]
    rw [intercalate_concat, intercalate4_factor]
    exact ⟨_, _, rfl⟩

unseal Rat.add Rat.mul Rat.sub Rat.inv in
/-- Witness for the amended C9. -/
theorem C9_percent_signs_witness :
    _fmt_change none (some (mkRat 1 4)) = "+" ++ fmtFixed (mkRat 1 4) 2 ++ "%" ∧
    _fmt_pct (some (mkRat 1 4)) = fmtFixed (mkRat 1 4 * 100) 2 ++ "%" ∧
    ((_fmt_pct (some (mkRat 1 4))).toList.headD ' ') ≠ '+' ∧
    ("Period change: +" ++ fmtFixed (mkRat 1 4) 2 ++ "% (" ++
      _fmt_price (some 100) "USD" ++ " → " ++
      _fmt_price (some (mkRat 401 4)) "USD" ++ ").") ∈
      _build_price_data_lines
        ({ ohlcv_30days := some [{ openP := some 100, close := some (mkRat 401 4) }] } :
          PriceData) "USD" ∧
    (∃ pre post, _build_earnings
        ({ last_quarter := some ({ eps_surprise_pct := some (mkRat 1 4) } : LastQuarter) } :
          EarningsData) =
      pre ++ ("EPS surprise: +" ++ fmtFixed (mkRat 1 4) 2 ++ "%") ++ post) :=
  ⟨(C9_percent_signs (mkRat 1 4) (by decide)).1,
   (C9_percent_signs (mkRat 1 4) (by decide)).2.2.1,
   (C9_percent_signs (mkRat 1 4) (by decide)).2.2.2.1,
   (C9_percent_signs (mkRat 1 4) (by decide)).2.2.2.2.2.1
     ({ ohlcv_30days := some [{ openP := some 100, close := some (mkRat 401 4) }] } :
       PriceData) "USD" 100 (mkRat 401 4) rfl rfl (by decide) (by decide) (by decide),
   (C9_percent_signs (mkRat 1 4) (by decide)).2.2.2.2.2.2 _ _ rfl rfl⟩

theorem intercalate_go_length_ge (s : String) (l : List String) (acc : String) :
    acc.length ≤ (String.intercalate.go acc s l).length ∧
    ∀ x ∈ l, x.length ≤ (String.intercalate.go acc s l).length := by
  induction l generalizing acc with
  | nil => exact ⟨le_refl _, by simp⟩
  | cons a as ih =>
    have hacc : acc.length ≤ (acc ++ s ++ a).length := by
      simp only [String.length_append]
      omega
    refine ⟨le_trans hacc (ih (acc ++ s ++ a)).1, ?_⟩
    intro x hx
    rcases List.mem_cons.mp hx with rfl | hx'
    · refine le_trans ?_ ((ih (acc ++ s ++ x)).1)
      simp only [String.length_append]
      omega
    · exact (ih (acc ++ s ++ a)).2 x hx'

theorem intercalate_length_ge (s x : String) (l : List String) (hx : x ∈ l) :
    x.length ≤ (String.intercalate s l).length := by
  cases l with
  | nil => simp at hx
  | cons a as =>
    rcases List.mem_cons.mp hx with rfl | hx'
    · exact (intercalate_go_length_ge s as x).1
    · exact (intercalate_go_length_ge s as a).2 x hx'

theorem escape_replicate_a (n : Nat) :
    _escape (String.mk (List.replicate n 'a')) = String.mk (List.replicate n 'a') := by
  unfold _escape
  rw [show (String.mk (List.replicate n 'a')).toList = List.replicate n 'a' from rfl]
  congr 1
  induction n with
  | zero => rfl
  | succ k ih =>
    rw [List.replicate_succ, List.flatMap_cons, ih]
    rfl

theorem cexSource_escape : _escape cexSource = cexSource := escape_replicate_a 400000

theorem cexSource_length : cexSource.length = 400000 := by
  show (List.replicate 400000 'a').length = 400000
  rw [List.length_replicate]

theorem news_section_length_ge (a : Article) (rest : List Article) (tc : Nat) :
    (_escape (pyGetStr a.source "Unknown")).length ≤
      (_build_news_articles (a :: rest) tc).length := by
  unfold _build_news_articles
  rw [show (a :: rest).isEmpty = false from rfl]
  simp only [Bool.false_eq_true, if_false, List.flatMap_cons]
  refine le_trans ?_ (intercalate_length_ge "\n"
    ("<article source=\"" ++ _escape (pyGetStr a.source "Unknown") ++ "\" date=\"" ++
      (a.published_at.getD "").take 10 ++ "\" provider=\"" ++ a.provider.getD "" ++ "\">")
    _ ?_)
  · simp only [String.length_append]
    omega
  · simp

set_option maxRecDepth 40000 in
/-- C2 counterexample: with one article whose `source` field holds
400,000 characters — a field the size estimator never reads but the
renderer embeds — and one default Reddit post, nothing is trimmed (the
estimates are 80 and 150), both variable collections are non-empty and
trimmable to empty (the empty collections' estimates fit the half
budget), yet the bundle exceeds the 320,000-character global budget. -/
theorem C2_counterexample :
    (cexNews.articles.getD []) ≠ [] ∧
    (cexReddit.posts.getD []) ≠ [] ∧
    (_estimate_articles_size [] : Int) ≤
      Int.fdiv ((_MAX_CHARS : Int) -
        (((String.intercalate "\n\n"
          [_build_ticker_info {} (pyGetStr ({} : PriceData).currency "USD"),
           _build_price_data {} (pyGetStr ({} : PriceData).currency "USD"),
           _build_earnings {}, _build_sec_filings {}]).length : Int))) 2 ∧
    (_estimate_posts_size [] : Int) ≤
      Int.fdiv ((_MAX_CHARS : Int) -
        (((String.intercalate "\n\n"
          [_build_ticker_info {} (pyGetStr ({} : PriceData).currency "USD"),
           _build_price_data {} (pyGetStr ({} : PriceData).currency "USD"),
           _build_earnings {}, _build_sec_filings {}]).length : Int))) 2 ∧
    _MAX_CHARS < (format_context {} cexNews cexReddit {} {}).length := by
  refine ⟨by decide, by decide, by decide, by decide, ?_⟩
  have h1 : 400000 ≤ (_build_news_articles [cexArticle] 0).length := by
    have hbase := news_section_length_ge cexArticle [] 0
    rw [show pyGetStr cexArticle.source "Unknown" = cexSource from rfl,
      cexSource_escape, cexSource_length] at hbase
    exact hbase
  have h2 : (_build_news_articles [cexArticle] 0).length ≤
      (format_context {} cexNews cexReddit {} {}).length := by
    show (_build_news_articles [cexArticle] 0).length ≤
      (String.intercalate "\n\n"
        [_build_ticker_info {} (pyGetStr ({} : PriceData).currency "USD"),
         _build_price_data {} (pyGetStr ({} : PriceData).currency "USD"),
         _build_news_articles [cexArticle] 0,
         _build_reddit_posts [({} : RPost)] ({} : RStats) 0,
         _build_sec_filings {}, _build_earnings {}]).length
    exact intercalate_length_ge "\n\n" _ _ (by simp)
  have hmax : _MAX_CHARS = 320000 := rfl
  omega

/-- C2 (amended): `format_context` guarantees the budget at the level
of the size estimates: after trimming, the estimate of each variable
collection fits its half of the remaining budget or the collection is
empty, and the bundle is the fixed-order assembly of the six sections
built from the trimmed collections.  The rendered bundle itself may
exceed the 320,000-character global budget even when both collections
are non-empty and trimmable to empty, because the renderer emits
markup and fields (e.g. the article source) the estimator does not
count. -/
theorem C2_budget_estimates (price_data : PriceData) (news_data : NewsData)
    (reddit_data : RedditData) (sec_data : SecData)
    (earnings_data : EarningsData) :
    ((_estimate_articles_size
        (_trim_articles (news_data.articles.getD [])
          (Int.fdiv ((_MAX_CHARS : Int) -
            (((String.intercalate "\n\n"
              [_build_ticker_info price_data (pyGetStr price_data.currency "USD"),
               _build_price_data price_data (pyGetStr price_data.currency "USD"),
               _build_earnings earnings_data,
               _build_sec_filings sec_data]).length : Int))) 2)).1 : Int) ≤
        Int.fdiv ((_MAX_CHARS : Int) -
          (((String.intercalate "\n\n"
            [_build_ticker_info price_data (pyGetStr price_data.currency "USD"),
             _build_price_data price_data (pyGetStr price_data.currency "USD"),
             _build_earnings earnings_data,
             _build_sec_filings sec_data]).length : Int))) 2 ∨
      (_trim_articles (news_data.articles.getD [])
        (Int.fdiv ((_MAX_CHARS : Int) -
          (((String.intercalate "\n\n"
            [_build_ticker_info price_data (pyGetStr price_data.currency "USD"),
             _build_price_data price_data (pyGetStr price_data.currency "USD"),
             _build_earnings earnings_data,
             _build_sec_filings sec_data]).length : Int))) 2)).1 = []) ∧
    ((_estimate_posts_size
        (_trim_posts (reddit_data.posts.getD [])
          (Int.fdiv ((_MAX_CHARS : Int) -
            (((String.intercalate "\n\n"
              [_build_ticker_info price_data (pyGetStr price_data.currency "USD"),
               _build_price_data price_data (pyGetStr price_data.currency "USD"),
               _build_earnings earnings_data,
               _build_sec_filings sec_data]).length : Int))) 2)).1 : Int) ≤
        Int.fdiv ((_MAX_CHARS : Int) -
          (((String.intercalate "\n\n"
            [_build_ticker_info price_data (pyGetStr price_data.currency "USD"),
             _build_price_data price_data (pyGetStr price_data.currency "USD"),
             _build_earnings earnings_data,
             _build_sec_filings sec_data]).length : Int))) 2 ∨
      (_trim_posts (reddit_data.posts.getD [])
        (Int.fdiv ((_MAX_CHARS : Int) -
          (((String.intercalate "\n\n"
            [_build_ticker_info price_data (pyGetStr price_data.currency "USD"),
             _build_price_data price_data (pyGetStr price_data.currency "USD"),
             _build_earnings earnings_data,
             _build_sec_filings sec_data]).length : Int))) 2)).1 = []) ∧
    format_context price_data news_data reddit_data sec_data earnings_data =
      String.intercalate "\n\n"
        [_build_ticker_info price_data (pyGetStr price_data.currency "USD"),
         _build_price_data price_data (pyGetStr price_data.currency "USD"),
         _build_news_articles
           (_trim_articles (news_data.articles.getD [])
             (Int.fdiv ((_MAX_CHARS : Int) -
               (((String.intercalate "\n\n"
                 [_build_ticker_info price_data (pyGetStr price_data.currency "USD"),
                  _build_price_data price_data (pyGetStr price_data.currency "USD"),
                  _build_earnings earnings_data,
                  _build_sec_filings sec_data]).length : Int))) 2)).1
           (_trim_articles (news_data.articles.getD [])
             (Int.fdiv ((_MAX_CHARS : Int) -
               (((String.intercalate "\n\n"
                 [_build_ticker_info price_data (pyGetStr price_data.currency "USD"),
                  _build_price_data price_data (pyGetStr price_data.currency "USD"),
                  _build_earnings earnings_data,
                  _build_sec_filings sec_data]).length : Int))) 2)).2,
         _build_reddit_posts
           (_trim_posts (reddit_data.posts.getD [])
             (Int.fdiv ((_MAX_CHARS : Int) -
               (((String.intercalate "\n\n"
                 [_build_ticker_info price_data (pyGetStr price_data.currency "USD"),
                  _build_price_data price_data (pyGetStr price_data.currency "USD"),
                  _build_earnings earnings_data,
                  _build_sec_filings sec_data]).length : Int))) 2)).1
           (reddit_data.stats.getD {})
           (_trim_posts (reddit_data.posts.getD [])
             (Int.fdiv ((_MAX_CHARS : Int) -
               (((String.intercalate "\n\n"
                 [_build_ticker_info price_data (pyGetStr price_data.currency "USD"),
                  _build_price_data price_data (pyGetStr price_data.currency "USD"),
                  _build_earnings earnings_data,
                  _build_sec_filings sec_data]).length : Int))) 2)).2,
         _build_sec_filings sec_data, _build_earnings earnings_data] :=
  ⟨(trim_articles_spec _ _).2.2.2, (trim_posts_spec _ _).2.2.2, rfl⟩

theorem getD_append_lt {α : Type} (l l2 : List α) (r : Nat) (d : α) (h : r < l.length) :
    (l ++ l2).getD r d = l.getD r d := by
  simp [List.getD, List.getElem?_append, h]

theorem getD_append_length {α : Type} (l : List α) (x d : α) :
    (l ++ [x]).getD l.length d = x := by
  simp [List.getD, List.getElem?_append]

theorem set_append_length {α : Type} (l : List α) (x y : α) :
    (l ++ [x]).set l.length y = l ++ [y] := by
  rw [List.set_append_right _ _ (le_refl _)]
  simp

theorem format_context_heap_spec (price_data : PriceData) (news_data : NewsDataRef)
    (reddit_data : RedditDataRef) (sec_data : SecData) (earnings_data : EarningsData)
    (s0 : ListHeap) :
    format_context_heap price_data news_data reddit_data sec_data earnings_data s0 =
      (format_context price_data (derefNews s0 news_data) (derefReddit s0 reddit_data)
        sec_data earnings_data,
       { articleCells := s0.articleCells ++
           [(_trim_articles ((derefNews s0 news_data).articles.getD [])
             (Int.fdiv ((_MAX_CHARS : Int) -
               (((String.intercalate "\n\n"
                 [_build_ticker_info price_data (pyGetStr price_data.currency "USD"),
                  _build_price_data price_data (pyGetStr price_data.currency "USD"),
                  _build_earnings earnings_data,
                  _build_sec_filings sec_data]).length : Int))) 2)).1],
         postCells := s0.postCells ++
           [(_trim_posts ((derefReddit s0 reddit_data).posts.getD [])
             (Int.fdiv ((_MAX_CHARS : Int) -
               (((String.intercalate "\n\n"
                 [_build_ticker_info price_data (pyGetStr price_data.currency "USD"),
                  _build_price_data price_data (pyGetStr price_data.currency "USD"),
                  _build_earnings earnings_data,
                  _build_sec_filings sec_data]).length : Int))) 2)).1] }) := by
  unfold format_context_heap format_context allocArticles allocPosts trimArticlesAt
    trimPostsAt derefNews derefReddit readArticlesAt readPostsAt
  cases hN : news_data.articles <;> cases hR : reddit_data.posts <;>
    simp only [hN, hR, Option.map_some', Option.map_none', Option.getD_some,
      Option.getD_none, getD_append_length, set_append_length]

/-- C10: `format_context` never mutates its caller's input data.  The
trimmer pops elements in place, but only from the fresh copies
(`list(...)`) of the caller's article and post lists allocated inside
`format_context`: afterwards every pre-existing heap cell — in
particular the caller's lists, with every original item in original
order — is unchanged, the other inputs are plain values passed
read-only, and the produced bundle equals the pure `format_context`
applied to the dereferenced inputs. -/
theorem C10_no_caller_mutation (price_data : PriceData) (news_data : NewsDataRef)
    (reddit_data : RedditDataRef) (sec_data : SecData) (earnings_data : EarningsData)
    (s0 : ListHeap) :
    (∀ r, r < s0.articleCells.length →
      readArticlesAt
        (format_context_heap price_data news_data reddit_data sec_data earnings_data s0).2 r =
      readArticlesAt s0 r) ∧
    (∀ r, r < s0.postCells.length →
      readPostsAt
        (format_context_heap price_data news_data reddit_data sec_data earnings_data s0).2 r =
      readPostsAt s0 r) ∧
    (format_context_heap price_data news_data reddit_data sec_data earnings_data s0).1 =
      format_context price_data (derefNews s0 news_data) (derefReddit s0 reddit_data)
        sec_data earnings_data := by
  rw [format_context_heap_spec]
  refine ⟨?_, ?_, rfl⟩
  · intro r hr
    exact getD_append_lt _ _ _ _ hr
  · intro r hr
    exact getD_append_lt _ _ _ _ hr

/-- Witness for C10 at a one-cell store. -/
theorem C10_no_caller_mutation_witness :
    readArticlesAt
      (format_context_heap {} ⟨some 0⟩ ⟨some 0, none⟩ {} {}
        ⟨[[cexArticle]], [[({} : RPost)]]⟩).2 0 = [cexArticle] ∧
    readPostsAt
      (format_context_heap {} ⟨some 0⟩ ⟨some 0, none⟩ {} {}
        ⟨[[cexArticle]], [[({} : RPost)]]⟩).2 0 = [({} : RPost)] := by
  constructor
  · rw [(C10_no_caller_mutation {} ⟨some 0⟩ ⟨some 0, none⟩ {} {}
      ⟨[[cexArticle]], [[({} : RPost)]]⟩).1 0 (by decide)]
    rfl
  · rw [(C10_no_caller_mutation {} ⟨some 0⟩ ⟨some 0, none⟩ {} {}
      ⟨[[cexArticle]], [[({} : RPost)]]⟩).2.1 0 (by decide)]
    rfl
